import Mathlib

/-!
# Verification of the azure-monitor-exporter probe pipeline

A shallow embedding of the probe pipeline of `jkroepke/azure-monitor-exporter`
(package `pkg/probe`, plus the generic TTL cache of `pkg/cache`), together
with theorems settling the specification claims about it.

The embedding follows the current (`Request`-based) implementation:
`GetConfigFromRequest` (config.go), `getProbeTimeout`, `getResources`,
`queryResources`/`resourceGraphQuery`, `fetchMetrics`/`fetchMetricsPerSubscription`
(pkg/probe/main.go) and `Cache.Get`/`Cache.Set` (pkg/cache).

Conventions of the embedding:
* Go `time.Time` timestamps are natural numbers (ticks); the Go zero value
  `time.Time{}` is `0`, and `a.After(b)` is the strict comparison `b < a`.
* Go `int64` arithmetic is `Int` arithmetic reduced into
  `[-2^63, 2^63)` by `wrap64` wherever Go can overflow.
* Go maps used as dictionaries are association lists; iteration order of Go
  maps is unspecified, so theorems only rely on membership, not on order.
* `*float64` metric values are `Option ℚ`.
* Fallible Go functions return `Except String` or pairs with a Bool flag.
-/

namespace AzureMonitorExporter

/-! ## Go primitive helpers -/

/-- Two's-complement reduction of an integer into the Go `int64` range,
    modelling Go's wrap-around arithmetic. -/
def wrap64 (x : Int) : Int :=
  (x + 2 ^ 63) % 2 ^ 64 - 2 ^ 63

/-- One step of Go's `strconv.ParseUint` digit loop (base 10): accumulate a
    decimal digit, or fail on a non-digit character. -/
def parseUintStep (acc : Option Nat) (c : Char) : Option Nat :=
  match acc with
  | none => none
  | some n => if c.isDigit then some (n * 10 + (c.toNat - 48)) else none

/-- Go `strconv.ParseUint(s, 10, 64)`: the returned value together with an
    ok-flag.  On a syntax error Go returns `(0, ErrSyntax)`; on overflow it
    returns the clamped maximum together with `ErrRange`. -/
def goParseUint64 (s : String) : Nat × Bool :=
  if s = "" then (0, false)
  else
    match s.data.foldl parseUintStep (some 0) with
    | none => (0, false)
    | some n => if n ≤ 2 ^ 64 - 1 then (n, true) else (2 ^ 64 - 1, false)

/-- Go `strconv.ParseInt(s, 10, 64)`: sign handling plus `ParseUint`,
    clamping at the `int64` boundaries on range errors.  The pair is the
    returned value and the ok-flag (`err == nil`). -/
def goParseInt64 (s : String) : Int × Bool :=
  if s = "" then (0, false)
  else
    let neg := s.front = '-'
    let rest := if s.front = '-' ∨ s.front = '+' then s.drop 1 else s
    let (un, ok) := goParseUint64 rest
    if ¬ ok ∧ un = 0 then (0, false)
    else if ¬ neg ∧ 2 ^ 63 ≤ un then (2 ^ 63 - 1, false)
    else if neg ∧ 2 ^ 63 < un then (-(2 ^ 63), false)
    else if neg then (-(un : Int), ok) else ((un : Int), ok)

/-- Go `strconv.ParseInt(s, 10, 32)` as used for the `top` parameter:
    same as the 64-bit version but clamped at the `int32` boundaries. -/
def goParseInt32 (s : String) : Int × Bool :=
  if s = "" then (0, false)
  else
    let neg := s.front = '-'
    let rest := if s.front = '-' ∨ s.front = '+' then s.drop 1 else s
    let (un, ok) := goParseUint64 rest
    if ¬ ok ∧ un = 0 then (0, false)
    else if ¬ neg ∧ 2 ^ 31 ≤ un then (2 ^ 31 - 1, false)
    else if neg ∧ 2 ^ 31 < un then (-(2 ^ 31), false)
    else if neg then (-(un : Int), ok) else ((un : Int), ok)

/-! ## Batch splitting (`fetchMetricsPerSubscription` loop, main.go)

The fetch loop repeatedly slices off at most `maxResourcesPerQuery = 50`
resource IDs, issues one metrics call with that slice, and stops once the
remainder is empty (a do-while loop: even an empty input list yields one
call). -/

/-- Constant `maxResourcesPerQuery` of main.go. -/
def maxResourcesPerQuery : Nat := 50

/-- The successive `requestResourceIDs` slices submitted to the metrics API
    by the loop in `fetchMetricsPerSubscription`. -/
def batchResourceIDs (l : List String) : List (List String) :=
  if h : (l.drop maxResourcesPerQuery).isEmpty then [l.take maxResourcesPerQuery]
  else l.take maxResourcesPerQuery :: batchResourceIDs (l.drop maxResourcesPerQuery)
termination_by l.length
decreasing_by
  simp only [List.isEmpty_iff, ← List.length_pos] at h
  simp only [List.length_drop, maxResourcesPerQuery] at h ⊢
  omega

theorem batchResourceIDs_le (l : List String) :
    ∀ b ∈ batchResourceIDs l, b.length ≤ maxResourcesPerQuery := by
  induction l using batchResourceIDs.induct with
  | case1 l hempty =>
      intro b hb
      rw [batchResourceIDs, dif_pos hempty] at hb
      simp only [List.mem_singleton] at hb
      subst hb
      simpa using List.length_take_le maxResourcesPerQuery l
  | case2 l hempty ih =>
      intro b hb
      rw [batchResourceIDs, dif_neg hempty] at hb
      rcases List.mem_cons.mp hb with rfl | hb
      · simpa using List.length_take_le maxResourcesPerQuery l
      · exact ih b hb

theorem batchResourceIDs_join (l : List String) :
    (batchResourceIDs l).flatten = l := by
  induction l using batchResourceIDs.induct with
  | case1 l hempty =>
      rw [batchResourceIDs, dif_pos hempty]
      have : l.drop maxResourcesPerQuery = [] := List.isEmpty_iff.mp hempty
      simp only [List.flatten]
      calc l.take maxResourcesPerQuery ++ [].flatten
        _ = l.take maxResourcesPerQuery ++ l.drop maxResourcesPerQuery := by simp [this]
        _ = l := List.take_append_drop _ l
  | case2 l hempty ih =>
      rw [batchResourceIDs, dif_neg hempty]
      simp only [List.flatten_cons, ih]
      exact List.take_append_drop _ l

theorem batchResourceIDs_count (l : List String) (h : 1 ≤ l.length) :
    (batchResourceIDs l).length = (l.length + 49) / 50 := by
  induction l using batchResourceIDs.induct with
  | case1 l hempty =>
      rw [batchResourceIDs, dif_pos hempty]
      simp only [List.length_singleton]
      have hrest : (l.drop maxResourcesPerQuery).length = 0 := by
        simp [List.isEmpty_iff.mp hempty]
      simp only [List.length_drop, maxResourcesPerQuery] at hrest
      omega
  | case2 l hempty ih =>
      rw [batchResourceIDs, dif_neg hempty]
      simp only [List.length_cons]
      have hpos : 0 < (l.drop maxResourcesPerQuery).length := by
        simp only [List.isEmpty_iff, ← List.length_pos] at hempty
        exact hempty
      have hlen : (l.drop maxResourcesPerQuery).length = l.length - 50 := by
        simp [List.length_drop, maxResourcesPerQuery]
      rw [ih (by omega)]
      simp only [List.length_drop, maxResourcesPerQuery]
      omega

/-! ## Metrics response data model (`azmetrics` types as consumed by main.go) -/

/-- One data point of a time series (`azmetrics.MetricValue`): a timestamp and
    the five optional aggregation values (`*float64` fields). -/
structure MetricValue where
  TimeStamp : Nat
  Total : Option ℚ
  Average : Option ℚ
  Count : Option ℚ
  Minimum : Option ℚ
  Maximum : Option ℚ
deriving DecidableEq

/-- Model of `azmetrics.TimeSeriesElement`: metadata labels plus data points. -/
structure TimeSeriesElement where
  MetadataValues : List (String × String)
  Data : List MetricValue
deriving DecidableEq

/-- Model of `azmetrics.Metric`: one metric of a metric entity, with its error code. -/
structure Metric where
  Name : String
  NameLocalizedValue : String
  DisplayDescription : String
  Unit : String
  ErrorCode : Option String
  TimeSeries : List TimeSeriesElement
deriving DecidableEq

/-- Model of `azmetrics.MetricData`: one metric entity (one resource) of a batch
    response. -/
structure MetricData where
  Namespace : String
  ResourceID : String
  ResourceRegion : String
  Values : List Metric
deriving DecidableEq

/-- The `latestMetric` map of `fetchMetricsPerSubscription`, with its five
    fixed keys `total`, `average`, `count`, `minimum`, `maximum`. -/
structure LatestMetric where
  total : Option ℚ
  average : Option ℚ
  count : Option ℚ
  minimum : Option ℚ
  maximum : Option ℚ
deriving DecidableEq

/-- The reset value of `latestMetric`: every key maps to `nil`. -/
def LatestMetric.init : LatestMetric := ⟨none, none, none, none, none⟩

/-- One iteration of the data-point loop: `if data.TimeStamp.After(latestTimestamp)`
    replaces the timestamp and all five aggregation values. -/
def updateLatest (st : Nat × LatestMetric) (d : MetricValue) : Nat × LatestMetric :=
  if st.1 < d.TimeStamp then
    (d.TimeStamp, ⟨d.Total, d.Average, d.Count, d.Minimum, d.Maximum⟩)
  else st

/-- Go map assignment `labels[k] = v` on an association list: replace the
    value of the first binding of the key, otherwise add the binding. -/
def insertLabel : List (String × String) → String → String → List (String × String)
  | [], k, v => [(k, v)]
  | (a, b) :: t, k, v =>
    if a = k then (a, v) :: t else (a, b) :: insertLabel t k v

/-- Go `strings.ToLower` (character-wise lowering; the namespace, metric name
    and unit strings involved are ASCII). -/
def goToLower (s : String) : String := String.mk (s.data.map Char.toLower)

/-- The scan of `strings.ReplaceAll`: replace every (non-overlapping, left to
    right) occurrence of `pattern`; the fuel argument is the input length,
    which every step strictly decreases. -/
def replaceAllGo (pattern repl : List Char) : Nat → List Char → List Char
  | 0, cs => cs
  | _ + 1, [] => []
  | fuel + 1, c :: cs =>
    if (c :: cs).take pattern.length = pattern then
      repl ++ replaceAllGo pattern repl fuel ((c :: cs).drop pattern.length)
    else c :: replaceAllGo pattern repl fuel cs

/-- Go `strings.ReplaceAll(s, pattern, repl)` (for the non-empty patterns the
    probe uses). -/
def goReplaceAll (s pattern repl : String) : String :=
  String.mk (replaceAllGo pattern.data repl.data s.data.length s.data)

/-- Namespace sanitization of main.go:
    `strings.ReplaceAll(strings.ReplaceAll(strings.ToLower(ns), ".", "_"), "/", "_")`. -/
def sanitizeMetricNamespace (s : String) : String :=
  goReplaceAll (goReplaceAll (goToLower s) "." "_") "/" "_"

/-- Metric-name sanitization of main.go:
    `strings.ReplaceAll(strings.ToLower(name), " ", "")`. -/
def sanitizeMetricName (s : String) : String :=
  goReplaceAll (goToLower s) " " ""

/-- Model of `prometheus.BuildFQName`: joins the non-empty parts with `_`;
    empty `name` yields the empty string. -/
def buildFQName (ns subsystem name : String) : String :=
  if name = "" then ""
  else if ns ≠ "" ∧ subsystem ≠ "" then ns ++ "_" ++ subsystem ++ "_" ++ name
  else if ns ≠ "" then ns ++ "_" ++ name
  else if subsystem ≠ "" then subsystem ++ "_" ++ name
  else name

/-- One gauge sample sent to the collect channel
    (`prometheus.MustNewConstMetric` with a fresh descriptor). -/
structure Sample where
  name : String
  help : String
  labels : List (String × String)
  value : ℚ
deriving DecidableEq

/-- The five `latestMetric` entries in fixed key order.  Go iterates the map
    in unspecified order; all theorems below are order-insensitive. -/
def aggregationEntries (lm : LatestMetric) : List (String × Option ℚ) :=
  [("total", lm.total), ("average", lm.average), ("count", lm.count),
   ("minimum", lm.minimum), ("maximum", lm.maximum)]

/-- The emission loop `for metricType, value := range latestMetric`:
    `nil` values are skipped (`continue`), every other value becomes one
    sample whose name is
    `BuildFQName(prometheusMetricNamespace, sanitizedName, metricType_unit)`. -/
def emitMetricSamples (prometheusMetricNamespace : String)
    (labels : List (String × String)) (m : Metric) (lm : LatestMetric) : List Sample :=
  (aggregationEntries lm).filterMap fun p =>
    p.2.map fun v =>
      { name := buildFQName prometheusMetricNamespace (sanitizeMetricName m.Name)
          (p.1 ++ "_" ++ goToLower m.Unit)
        help := m.NameLocalizedValue ++ ": " ++ m.DisplayDescription
        labels := labels
        value := v }

/-- State threaded through the `for _, metricValue := range metric.Values`
    loop of one metric entity: the entity's (mutated) label map, the shared
    `latestTimestamp`/`latestMetric` pair and the samples emitted so far. -/
structure EntityState where
  prometheusLabels : List (String × String)
  latestTimestamp : Nat
  latestMetric : LatestMetric
  samples : List Sample
deriving DecidableEq

/-- One iteration of the metric loop of `fetchMetricsPerSubscription`:
    skip on a non-`"Success"` error code, skip on empty time series;
    otherwise merge the first time series' metadata labels, scan every data
    point of every time series through `updateLatest`, and emit the non-`nil`
    aggregation values. -/
def processMetric (prometheusMetricNamespace : String) (st : EntityState)
    (m : Metric) : EntityState :=
  if m.ErrorCode.isSome ∧ m.ErrorCode ≠ some "Success" then st
  else
    match m.TimeSeries with
    | [] => st
    | ts0 :: _ =>
      let labels := ts0.MetadataValues.foldl (fun l p => insertLabel l p.1 p.2)
        st.prometheusLabels
      let scanned := m.TimeSeries.foldl
        (fun s tse => tse.Data.foldl updateLatest s)
        (st.latestTimestamp, st.latestMetric)
      { prometheusLabels := labels
        latestTimestamp := scanned.1
        latestMetric := scanned.2
        samples := st.samples ++ emitMetricSamples prometheusMetricNamespace labels m scanned.2 }

/-- The discovery-time extra labels: resource ID → label name → value
    (`AdditionalLabels` of types.go). -/
abbrev AdditionalLabels : Type := List (String × List (String × String))

/-- Lookup `additionalLabels[resourceID]` (a missing key is Go's nil map: no entries). -/
def AdditionalLabels.get (al : AdditionalLabels) (resourceID : String) :
    List (String × String) :=
  (al.lookup resourceID).getD []

/-- Processing of one metric entity (`for _, metric := range resp.Values`):
    build the base labels (`subscription_id`, `region`, `instance`), merge the
    discovery-time extra labels of the resource, reset
    `latestTimestamp`/`latestMetric`, then run the metric loop. -/
def processMetricData (subscriptionID : String) (additionalLabels : AdditionalLabels)
    (md : MetricData) : List Sample :=
  let prometheusMetricNamespace :=
    "azure_monitor_" ++ sanitizeMetricNamespace md.Namespace
  let labels0 := [("subscription_id", subscriptionID),
                  ("region", md.ResourceRegion),
                  ("instance", md.ResourceID)]
  let labels1 := (additionalLabels.get md.ResourceID).foldl
    (fun l p => insertLabel l p.1 p.2) labels0
  (md.Values.foldl (processMetric prometheusMetricNamespace)
    { prometheusLabels := labels1
      latestTimestamp := 0
      latestMetric := LatestMetric.init
      samples := [] }).samples

/-- All samples of one successful batch response. -/
def batchSamples (subscriptionID : String) (additionalLabels : AdditionalLabels)
    (values : List MetricData) : List Sample :=
  (values.map (processMetricData subscriptionID additionalLabels)).flatten

/-! ## Resource discovery (`queryResources` / `resourceGraphQuery`, main.go) -/

/-- A dynamically typed value of a resource-graph row (`any` in Go): a string,
    a nested map, or some other JSON value. -/
inductive GoVal where
  | str : String → GoVal
  | map : List (String × GoVal) → GoVal
  | other : GoVal

/-- Model of `armresourcegraph.ClientResourcesResponse` as inspected by
    `resourceGraphQuery`: the three checked envelope pointers plus the skip
    token.  `Data` is the `[]any` row payload (`none` models a nil `Data`;
    the `.([]any)` type assertion is absorbed by the typing). -/
structure GraphResponse where
  ResultTruncated : Option String
  Data : Option (List GoVal)
  Count : Option Int
  SkipToken : Option String

/-- The response-validation part of `resourceGraphQuery` (the network call
    itself is the external collaborator; its response is the input).  Returns
    the rows and the next skip token (`""` when the token pointer is nil).
    The truncation branch only logs a warning and is elided. -/
def resourceGraphQuery (resp : GraphResponse) : Except String (List GoVal × String) :=
  if resp.ResultTruncated.isNone ∨ resp.Data.isNone ∨ resp.Count.isNone then
    .error "error querying resource graph: unexpected response"
  else if resp.Count = some 0 then
    .error "error querying resource graph: no rows returned"
  else
    match resp.Data with
    | none => .error "error querying resource graph: unexpected response"
    | some rows =>
      if rows.isEmpty then .error "error querying resource graph: no rows returned"
      else .ok (rows, resp.SkipToken.getD "")

/-- The assembled inventory (`Resources` of types.go): region → subscription →
    ordered resource-ID list, plus the extra-labels side map. -/
structure Resources where
  Resources : List (String × List (String × List String))
  AdditionalLabels : List (String × List (String × String))
deriving DecidableEq

/-- Go `m[k] = f(m[k])` with a default for a missing key (used for the nested
    bucket maps: create-if-absent then update). -/
def updateAssoc {α : Type} : List (String × α) → String → α → (α → α) →
    List (String × α)
  | [], k, dflt, f => [(k, f dflt)]
  | (a, b) :: t, k, dflt, f =>
    if a = k then (a, f b) :: t else (a, b) :: updateAssoc t k dflt f

/-- Go `m[k] = v` (replace or add). -/
def setAssoc {α : Type} (m : List (String × α)) (k : String) (v : α) :
    List (String × α) :=
  updateAssoc m k v (fun _ => v)

/-- Assignment `resources.Resources[location][subscriptionID] = append(..., id)` with the
    two create-if-absent steps that precede it. -/
def appendBucket (m : List (String × List (String × List String)))
    (location subscriptionID id : String) :
    List (String × List (String × List String)) :=
  updateAssoc m location []
    (fun subm => updateAssoc subm subscriptionID [] (fun ids => ids ++ [id]))

/-- The `label_` column extraction of one row: every key with prefix
    `label_` must hold a string; the prefix (6 characters) is stripped. -/
def extractRowLabels (resultRow : List (String × GoVal)) :
    Except String (List (String × String)) :=
  resultRow.foldlM
    (fun acc p =>
      if p.1.startsWith "label_" then
        match p.2 with
        | .str v => .ok (acc ++ [(p.1.drop 6, v)])
        | _ => .error "error querying resource graph: unexpected id type"
      else .ok acc)
    []

/-- Processing of one row of a page in `queryResources`: type-check the row
    and its three mandatory fields, collect the `label_` columns when the row
    has more than three columns (replacing any previous labels of that
    resource ID), and append the ID to its (region, subscription) bucket. -/
def processRow (rs : Resources) (row : GoVal) : Except String Resources :=
  match row with
  | .map resultRow =>
    match resultRow.lookup "subscriptionId" with
    | some (.str subscriptionID) =>
      match resultRow.lookup "location" with
      | some (.str location) =>
        match resultRow.lookup "id" with
        | some (.str resourceID) =>
          let withLabels : Except String Resources :=
            if 3 < resultRow.length then
              (extractRowLabels resultRow).map fun labels =>
                { rs with
                    AdditionalLabels := setAssoc rs.AdditionalLabels resourceID labels }
            else .ok rs
          withLabels.map fun rs' =>
            { rs' with
                Resources := appendBucket rs'.Resources location subscriptionID resourceID }
        | _ => .error "unexpected id type"
      | _ => .error "unexpected location type"
    | _ => .error "unexpected subscriptionId type"
  | _ => .error "unexpected row type"

/-- Processing of one page in `queryResources`: the first row must be a map
    holding the three mandatory fields, then every row is processed in order.
    (`resourceGraphQuery` guarantees a non-empty page; the `[]` branch is
    unreachable.) -/
def processPage (rs : Resources) (rows : List GoVal) : Except String Resources :=
  match rows with
  | [] => .error "index out of range"
  | firstRow :: _ =>
    match firstRow with
    | .map fr =>
      if (fr.lookup "subscriptionId").isNone then
        .error "missing field subscriptionId"
      else if (fr.lookup "location").isNone then
        .error "missing field location"
      else if (fr.lookup "id").isNone then
        .error "missing field id"
      else rows.foldlM processRow rs
    | _ => .error "unexpected type"

/-- The pagination loop of `queryResources` over the successive responses the
    inventory API returns for the repeated calls (one response per call); the
    loop stops when a response's skip token is empty. -/
def queryResourcesLoop (rs : Resources) :
    List GraphResponse → Except String Resources
  | [] => .ok rs
  | resp :: rest =>
    match resourceGraphQuery resp with
    | .error e => .error e
    | .ok (rows, skipToken) =>
      match processPage rs rows with
      | .error e => .error e
      | .ok rs' => if skipToken = "" then .ok rs' else queryResourcesLoop rs' rest

/-- Function `queryResources`: run the pagination loop from the empty inventory.
    On any error no incomplete inventory is returned. -/
def queryResources (responses : List GraphResponse) : Except String Resources :=
  queryResourcesLoop ⟨[], []⟩ responses

/-! ## Fetch orchestration and the two-phase `Collect` -/

/-- Function `fetchMetricsPerSubscription` for one (region, subscription) bucket:
    process the batches in order, one metrics-API call per batch (the call is
    the external collaborator `api`); a call error aborts the whole fetch,
    otherwise the batch samples are concatenated. -/
def fetchMetricsPerSubscription (subscriptionID : String)
    (resourceIDs : List String) (additionalLabels : AdditionalLabels)
    (api : List String → Except String (List MetricData)) :
    Except String (List Sample) :=
  (batchResourceIDs resourceIDs).foldlM
    (fun acc batch =>
      match api batch with
      | .error e => .error ("error querying metrics: " ++ e)
      | .ok values => .ok (acc ++ batchSamples subscriptionID additionalLabels values))
    []

/-- Function `fetchMetrics`: iterate the (region, subscription) buckets of the
    inventory, delegating each to `fetchMetricsPerSubscription`. -/
def fetchMetrics (resources : Resources)
    (api : String → String → List String → Except String (List MetricData)) :
    Except String (List Sample) :=
  resources.Resources.foldlM
    (fun acc p =>
      p.2.foldlM
        (fun acc q =>
          (fetchMetricsPerSubscription q.1 q.2
            (resources.AdditionalLabels) (api p.1 q.1)).map (acc ++ ·))
        acc)
    []

/-- The `Collect` control flow: a discovery error yields the success-0 gauge
    and no fetch; a fetch error yields success 0; otherwise the samples are
    emitted with success 1.  The pair is (synthesized samples, value of the
    `azure_monitor_scrape_collector_success` gauge). -/
def collect (discovery : Except String Resources)
    (api : String → String → List String → Except String (List MetricData)) :
    List Sample × Nat :=
  match discovery with
  | .error _ => ([], 0)
  | .ok resources =>
    match fetchMetrics resources api with
    | .error _ => ([], 0)
    | .ok samples => (samples, 1)

/-! ## Probe configuration (`Config`, `GetConfigFromRequest` of config.go) -/

/-- Struct `Config` of types.go (the `QueryResourcesOptions` pass-through fields
    `Aggregation`/`Interval`/`Filter`/`Top` inlined).  Durations are in
    nanoseconds. -/
structure Config where
  Subscriptions : Option (List String)
  ResourceType : String
  Query : String
  MetricNamespace : String
  MetricNames : List String
  MetricPrefix : String
  QueryCacheCacheExpiration : Int
  Aggregation : Option String
  Interval : Option String
  Filter : Option String
  Top : Option Int
deriving DecidableEq

/-- Model of `url.Values`: request query parameters, each key with its value list. -/
abbrev Values : Type := List (String × List String)

/-- Indexing `query[k]` of `url.Values` (missing key: empty list). -/
def Values.getAll (q : Values) (k : String) : List String :=
  (q.lookup k).getD []

/-- Method `query.Get(k)`: the first value, or `""` when the key is absent. -/
def Values.get (q : Values) (k : String) : String :=
  (q.getAll k).headD ""

/-- The unit table of Go `time.ParseDuration` (values in nanoseconds). -/
def durationUnits : List (String × Nat) :=
  [("ns", 1), ("us", 1000), ("µs", 1000), ("μs", 1000), ("ms", 1000000),
   ("s", 1000000000), ("m", 60000000000), ("h", 3600000000000)]

/-- Decimal digits to a natural number. -/
def digitsToNat (ds : List Char) : Nat :=
  ds.foldl (fun n c => n * 10 + (c.toNat - 48)) 0

/-- The `(number[.fraction]unit)+` loop of Go `time.ParseDuration`, with the
    running total `d` in nanosecond and Go's overflow checks: a part whose
    integer value exceeds `2^63 / unit` is rejected (one check that also
    subsumes `leadingInt`'s own overflow rejection, since `2^63 / unit ≤ 2^63`),
    a fractional contribution pushing the part past `2^63` is rejected, and so
    is a running total past `2^63`.  The fractional contribution is exact
    rational truncation in place of Go's float64 rounding, which no claim
    exercises.  The fuel argument bounds the character count; every step
    consumes at least one character. -/
def parseDurationParts : Nat → List Char → Nat → Option Nat
  | 0, _, _ => none
  | _ + 1, [], d => some d
  | fuel + 1, cs, d =>
    let intPart := cs.takeWhile Char.isDigit
    let r1 := cs.dropWhile Char.isDigit
    let fracPart : List Char :=
      match r1 with
      | '.' :: t => t.takeWhile Char.isDigit
      | _ => []
    let r2 : List Char :=
      match r1 with
      | '.' :: t => t.dropWhile Char.isDigit
      | _ => r1
    if intPart.isEmpty ∧ fracPart.isEmpty then none
    else
      let unitStr := r2.takeWhile (fun c => !c.isDigit && c != '.')
      let r3 := r2.dropWhile (fun c => !c.isDigit && c != '.')
      match durationUnits.lookup (String.mk unitStr) with
      | none => none
      | some unit =>
        let v := digitsToNat intPart
        if 2 ^ 63 / unit < v then none
        else
          let f := digitsToNat fracPart
          let v := v * unit
            + (if 0 < f then
                Nat.floor ((f : ℚ) * unit / ((10 : ℚ) ^ fracPart.length))
              else 0)
          if 0 < f ∧ 2 ^ 63 < v then none
          else if 2 ^ 63 < d + v then none
          else parseDurationParts fuel r3 (d + v)

/-- Go `time.ParseDuration`: optional sign, the literal `"0"`, or a non-empty
    sequence of number/unit parts; the accumulated total must fit in `int64`
    nanoseconds (`-2^63` is representable when the sign is negative, while a
    positive total above `2^63 - 1` is rejected as an invalid duration). -/
def goParseDuration (s : String) : Option Int :=
  if s = "" then none
  else
    let neg := s.front = '-'
    let rest := if s.front = '-' ∨ s.front = '+' then s.drop 1 else s
    if rest = "0" then some 0
    else if rest = "" then none
    else
      match parseDurationParts rest.length rest.data 0 with
      | none => none
      | some d =>
        if neg then some (-(d : Int))
        else if 2 ^ 63 - 1 < d then none
        else some (d : Int)

/-- Function `GetConfigFromRequest` (config.go): parameter validation in source order,
    first violated rule wins; returns the populated `Config` otherwise. -/
def GetConfigFromRequest (query : Values) : Except String Config :=
  let subscriptions : Option (List String) :=
    if ¬ (query.getAll "subscriptionID").isEmpty then
      some (query.getAll "subscriptionID")
    else if ¬ (query.getAll "subscriptionID[]").isEmpty then
      some (query.getAll "subscriptionID[]")
    else none
  let resourceType := query.get "resourceType"
  if (query.getAll "resourceType").length ≠ 1 ∨ resourceType = "" then
    .error "'resourceType' parameter must be specified once"
  else if (query.getAll "metricName").isEmpty ∧ (query.getAll "metricName[]").isEmpty then
    .error "'metricName' parameter must be specified"
  else
    let metricNames :=
      if ¬ (query.getAll "metricName").isEmpty then query.getAll "metricName"
      else query.getAll "metricName[]"
    let baseQuery :=
      if (query.getAll "query").length = 1 then query.get "query" else "Resources"
    let aggregation : Option String :=
      if (query.getAll "aggregation").length = 1 then some (query.get "aggregation")
      else if 1 ≤ (query.getAll "aggregation").length then
        some (String.intercalate "," (query.getAll "aggregation"))
      else if (query.getAll "aggregation[]").length = 1 then
        some (query.get "aggregation[]")
      else if 1 ≤ (query.getAll "aggregation[]").length then
        some (String.intercalate "," (query.getAll "aggregation[]"))
      else none
    if 1 < (query.getAll "interval").length then
      .error "'interval' parameter must be specified once"
    else
      let interval : Option String :=
        if (query.getAll "interval").length = 1 then some (query.get "interval") else none
      if 1 < (query.getAll "filter").length then
        .error "'filter' parameter must be specified once"
      else
        let filter : Option String :=
          if (query.getAll "filter").length = 1 then some (query.get "filter") else none
        if 1 < (query.getAll "metricPrefix").length then
          .error "'metricPrefix' parameter must be specified once"
        else
          let metricPrefix0 :=
            if (query.getAll "metricPrefix").length = 1 then query.get "metricPrefix" else ""
          let metricPrefix :=
            if metricPrefix0 = "" then "azure_monitor" else metricPrefix0
          if 1 < (query.getAll "metricNamespace").length then
            .error "'metricNamespace' parameter must be specified once"
          else
            let metricNamespace0 := query.get "metricNamespace"
            let metricNamespace :=
              if metricNamespace0 = "" then resourceType else metricNamespace0
            let mkConfig : Option Int → Int → Config := fun top qce =>
              { Subscriptions := subscriptions
                ResourceType := resourceType
                Query := baseQuery
                MetricNamespace := metricNamespace
                MetricNames := metricNames
                MetricPrefix := metricPrefix
                QueryCacheCacheExpiration := qce
                Aggregation := aggregation
                Interval := interval
                Filter := filter
                Top := top }
            let withTop : Except String (Option Int) :=
              if (query.getAll "top").length = 1 then
                match goParseInt32 (query.get "top") with
                | (v, true) => .ok (some v)
                | (_, false) => .error "'top' parameter must be a number"
              else if 1 ≤ (query.getAll "top").length then
                .error "'top' parameter must be specified once"
              else .ok none
            match withTop with
            | .error e => .error e
            | .ok top =>
              if (query.getAll "queryCacheExpiration").length = 1 then
                match goParseDuration (query.get "queryCacheExpiration") with
                | some d => .ok (mkConfig top d)
                | none => .error "'queryCacheExpiration' parameter must be a duration"
              else if 1 ≤ (query.getAll "queryCacheExpiration").length then
                .error "'queryCacheExpiration' parameter must be specified once"
              else .ok (mkConfig top 0)

/-! ## Probe timeout (`getProbeTimeout`) -/

/-- The first half of `getProbeTimeout`: parse the
    `X-Prometheus-Scrape-Timeout-Seconds` header (the argument is the header
    value, `""` when absent).  A parse failure only logs a warning and keeps
    whatever value `ParseInt` returned; a zero value falls back to 10
    seconds. -/
def effectiveTimeoutSeconds (header : String) : Int :=
  let timeout : Int := if header ≠ "" then (goParseInt64 header).1 else 0
  if timeout = 0 then 10 else timeout

/-- Function `getProbeTimeout`: the effective timeout seconds, times 1000 minus the
    500 ms safety margin, converted to a `time.Duration` in nanoseconds (both
    the subtraction and the millisecond conversion use wrapping `int64`
    arithmetic). -/
def getProbeTimeout (header : String) : Int :=
  wrap64 (wrap64 (effectiveTimeoutSeconds header * 1000 - 500) * 1000000)

/-! ## SHA-256 (`crypto/sha256.Sum256`) and the inventory cache key -/

/-- Right rotation on 32 bits. -/
def rotr32 (n x : Nat) : Nat :=
  ((x >>> n) ||| (x <<< (32 - n))) % 2 ^ 32

/-- Bitwise complement on 32 bits. -/
def bnot32 (x : Nat) : Nat := x ^^^ 4294967295

/-- SHA-256 round constants. -/
def sha256K : List Nat :=
  [1116352408, 1899447441, 3049323471, 3921009573, 961987163, 1508970993,
   2453635748, 2870763221, 3624381080, 310598401, 607225278, 1426881987,
   1925078388, 2162078206, 2614888103, 3248222580, 3835390401, 4022224774,
   264347078, 604807628, 770255983, 1249150122, 1555081692, 1996064986,
   2554220882, 2821834349, 2952996808, 3210313671, 3336571891, 3584528711,
   113926993, 338241895, 666307205, 773529912, 1294757372, 1396182291,
   1695183700, 1986661051, 2177026350, 2456956037, 2730485921, 2820302411,
   3259730800, 3345764771, 3516065817, 3600352804, 4094571909, 275423344,
   430227734, 506948616, 659060556, 883997877, 958139571, 1322822218,
   1537002063, 1747873779, 1955562222, 2024104815, 2227730452, 2361852424,
   2428436474, 2756734187, 3204031479, 3329325298]

/-- SHA-256 initial hash state. -/
def sha256InitH : List Nat :=
  [1779033703, 3144134277, 1013904242, 2773480762,
   1359893119, 2600822924, 528734635, 1541459225]

/-- Schedule function σ0 of SHA-256. -/
def smallSigma0 (x : Nat) : Nat := rotr32 7 x ^^^ rotr32 18 x ^^^ (x >>> 3)

/-- Schedule function σ1 of SHA-256. -/
def smallSigma1 (x : Nat) : Nat := rotr32 17 x ^^^ rotr32 19 x ^^^ (x >>> 10)

/-- Compression function Σ0 of SHA-256. -/
def bigSigma0 (x : Nat) : Nat := rotr32 2 x ^^^ rotr32 13 x ^^^ rotr32 22 x

/-- Compression function Σ1 of SHA-256. -/
def bigSigma1 (x : Nat) : Nat := rotr32 6 x ^^^ rotr32 11 x ^^^ rotr32 25 x

/-- Extend the 16 initial schedule words to 64. -/
def sha256Schedule (w16 : List Nat) : List Nat :=
  (List.range 48).foldl
    (fun w _ =>
      w ++ [(smallSigma1 (w.getD (w.length - 2) 0) + w.getD (w.length - 7) 0
        + smallSigma0 (w.getD (w.length - 15) 0) + w.getD (w.length - 16) 0) % 2 ^ 32])
    w16

/-- One compression round on the eight-word working state. -/
def sha256Round (st : List Nat) (kw : Nat × Nat) : List Nat :=
  match st with
  | [a, b, c, d, e, f, g, h] =>
    let t1 := (h + bigSigma1 e + ((e &&& f) ^^^ (bnot32 e &&& g)) + kw.1 + kw.2) % 2 ^ 32
    let t2 := (bigSigma0 a + ((a &&& b) ^^^ (a &&& c) ^^^ (b &&& c))) % 2 ^ 32
    [(t1 + t2) % 2 ^ 32, a, b, c, (d + t1) % 2 ^ 32, e, f, g]
  | other => other

/-- Compress one 64-byte block into the hash state. -/
def sha256Compress (hs : List Nat) (block : List Nat) : List Nat :=
  let w16 := (List.range 16).map fun i =>
    block.getD (4 * i) 0 * 2 ^ 24 + block.getD (4 * i + 1) 0 * 2 ^ 16
      + block.getD (4 * i + 2) 0 * 2 ^ 8 + block.getD (4 * i + 3) 0
  let st := (sha256K.zip (sha256Schedule w16)).foldl sha256Round hs
  (hs.zip st).map fun p => (p.1 + p.2) % 2 ^ 32

/-- SHA-256 padding: `0x80`, zeros to 56 mod 64, then the bit length
    big-endian in 8 bytes. -/
def sha256Pad (msg : List Nat) : List Nat :=
  let len := msg.length
  msg ++ [128] ++ List.replicate ((119 - len % 64) % 64) 0
    ++ ((List.range 8).map fun i => (len * 8) >>> (56 - 8 * i) % 2 ^ 64 % 256)

/-- Split a list into 64-byte blocks (structural recursion on a fuel bound
    so the kernel can evaluate it; the fuel is the list length, which every
    nonempty step strictly decreases). -/
def chunks64Go : Nat → List Nat → List (List Nat)
  | 0, _ => []
  | _ + 1, [] => []
  | fuel + 1, x :: t => (x :: t.take 63) :: chunks64Go fuel (t.drop 63)

/-- Split a (padded) message into 64-byte blocks. -/
def chunks64 (l : List Nat) : List (List Nat) :=
  chunks64Go l.length l

/-- Go `sha256.Sum256`: the 32-byte digest of a byte string. -/
def sha256Bytes (msg : List Nat) : List Nat :=
  ((chunks64 (sha256Pad msg)).foldl sha256Compress sha256InitH).flatMap fun h =>
    [h >>> 24 % 256, h >>> 16 % 256, h >>> 8 % 256, h % 256]

/-- One hex digit (lowercase), as produced by `hex.EncodeToString`. -/
def hexDigit (n : Nat) : Char :=
  if n < 10 then Char.ofNat (48 + n) else Char.ofNat (87 + n)

/-- Go `hex.EncodeToString` on a byte list. -/
def hexEncode (bytes : List Nat) : String :=
  String.mk (bytes.flatMap fun b => [hexDigit (b / 16), hexDigit (b % 16)])

/-- UTF-8 bytes of one character (Go `[]byte(string)` conversion). -/
def utf8Bytes (c : Char) : List Nat :=
  let n := c.toNat
  if n < 0x80 then [n]
  else if n < 0x800 then [0xc0 + n / 64, 0x80 + n % 64]
  else if n < 0x10000 then [0xe0 + n / 4096, 0x80 + n / 64 % 64, 0x80 + n % 64]
  else [0xf0 + n / 262144, 0x80 + n / 4096 % 64, 0x80 + n / 64 % 64, 0x80 + n % 64]

/-- Go `[]byte(s)`: the UTF-8 encoding of a string. -/
def stringBytes (s : String) : List Nat :=
  s.data.flatMap utf8Bytes

/-- The pre-hash cache key of `getResources`:
    `fmt.Sprintf("%s-%s-%s", query, resourceType, strings.Join(subscriptions, ","))`. -/
def cacheKeyString (query resourceType : String) (subscriptions : List String) : String :=
  query ++ "-" ++ resourceType ++ "-" ++ String.intercalate "," subscriptions

/-- The inventory cache key:
    `hex.EncodeToString(sha256.Sum256([]byte(cacheKey))[:])`. -/
def cacheKey (query resourceType : String) (subscriptions : List String) : String :=
  hexEncode (sha256Bytes (stringBytes (cacheKeyString query resourceType subscriptions)))

/-! ## The expiring cache (`pkg/cache`) and `getResources` -/

/-- The backing map of `Cache[T]`: key → (value, absolute expiration instant).
    Instants are integers (nanosecond ticks). -/
abbrev CacheMap (α : Type) : Type := List (String × α × Int)

/-- Method `Cache.Set`: store the value with expiration `now + expiration`. -/
def cacheSet {α : Type} (c : CacheMap α) (key : String) (value : α)
    (now expiration : Int) : CacheMap α :=
  setAssoc c key (value, now + expiration)

/-- Method `Cache.Get`: a missing or expired entry is a miss (an expired entry is
    deleted lazily); returns the result and the possibly shrunk map.
    Expiry is `time.Now().After(value.expiration)`, i.e. strict. -/
def cacheGet {α : Type} (c : CacheMap α) (key : String) (now : Int) :
    Option α × CacheMap α :=
  match c.lookup key with
  | none => (none, c.filter (fun p => p.1 ≠ key))
  | some (v, expiration) =>
    if expiration < now then
      (none, c.filter (fun p => p.1 ≠ key))
    else (some v, c)

/-- Method `Request.getResources`: with a zero TTL always discover; otherwise look
    the hashed key up, return a hit directly, and on a miss run discovery and
    store the result with the configured TTL.  The discovery call is the
    external collaborator, passed as its result.  Returns the inventory, the
    updated cache and whether discovery was invoked. -/
def getResources (config : Config) (probeSubscriptions : List String)
    (queryCache : CacheMap Resources) (now : Int)
    (discovery : Except String Resources) :
    Except String (Resources × CacheMap Resources × Bool) :=
  if config.QueryCacheCacheExpiration = 0 then
    match discovery with
    | .error e => .error ("error querying resources: " ++ e)
    | .ok r => .ok (r, queryCache, true)
  else
    let subscriptions := config.Subscriptions.getD probeSubscriptions
    let key := cacheKey config.Query config.ResourceType subscriptions
    match cacheGet queryCache key now with
    | (some r, cache') => .ok (r, cache', false)
    | (none, cache') =>
      match discovery with
      | .error e => .error ("error querying resources: " ++ e)
      | .ok r =>
        .ok (r, cacheSet cache' key r now config.QueryCacheCacheExpiration, true)

/-! ## Shared helper lemmas -/

theorem foldlM_ok_eq {β γ : Type} (f : γ → β → γ) (l : List β) (acc : γ) :
    (l.foldlM (fun a b => (Except.ok (f a b) : Except String γ)) acc)
      = .ok (l.foldl f acc) := by
  induction l generalizing acc with
  | nil => rfl
  | cons x xs ih =>
      simp only [List.foldlM_cons, List.foldl_cons]
      simpa using ih (f acc x)

theorem foldl_append_eq_flatten {β : Type} (g : β → List Sample)
    (bs : List β) (acc : List Sample) :
    bs.foldl (fun a b => a ++ g b) acc = acc ++ (bs.map g).flatten := by
  induction bs generalizing acc with
  | nil => simp
  | cons x xs ih => simp [ih]

theorem flatten_map_flatMap {β γ : Type} (f : β → List γ) (bs : List (List β)) :
    (bs.map (fun b => b.flatMap f)).flatten = bs.flatten.flatMap f := by
  induction bs with
  | nil => rfl
  | cons x xs ih => simp [ih]

/-- Claim C3: for every (region, subscription) bucket holding `n ≥ 1` resource
identifiers, the fetcher submits them to the metrics API in consecutive
batches of at most 50 IDs, issuing exactly `⌈n/50⌉` calls; 50 resources yield
exactly one batch call, and (for a per-resource response) every resource's
samples appear in the output. -/
theorem C3_batch_limit (l : List String) (h : 1 ≤ l.length) :
    (∀ b ∈ batchResourceIDs l, b.length ≤ 50)
    ∧ (batchResourceIDs l).length = (l.length + 49) / 50
    ∧ (batchResourceIDs l).flatten = l
    ∧ (l.length = 50 → batchResourceIDs l = [l])
    ∧ ∀ (subscriptionID : String) (al : AdditionalLabels) (ent : String → MetricData),
        fetchMetricsPerSubscription subscriptionID l al
            (fun batch => .ok (batch.map ent))
          = .ok (l.flatMap fun id => processMetricData subscriptionID al (ent id)) := by
  refine ⟨batchResourceIDs_le l, batchResourceIDs_count l h, batchResourceIDs_join l,
    ?_, ?_⟩
  · intro h50
    rw [batchResourceIDs]
    have hdrop : l.drop maxResourcesPerQuery = [] := by
      apply List.eq_nil_of_length_eq_zero
      simp [List.length_drop, maxResourcesPerQuery, h50]
    have htake : l.take maxResourcesPerQuery = l := by
      apply List.take_of_length_le
      simp [maxResourcesPerQuery, h50]
    rw [dif_pos (by simp [hdrop])]
    rw [htake]
  · intro subscriptionID al ent
    unfold fetchMetricsPerSubscription
    have hstep :
        (fun (acc : List Sample) (batch : List String) =>
            match (fun batch => (Except.ok (batch.map ent) :
                Except String (List MetricData))) batch with
            | .error e => (Except.error ("error querying metrics: " ++ e) :
                Except String (List Sample))
            | .ok values => .ok (acc ++ batchSamples subscriptionID al values))
          = fun acc batch => .ok (acc ++ batchSamples subscriptionID al (batch.map ent)) := by
      rfl
    rw [hstep, foldlM_ok_eq (fun acc batch =>
      acc ++ batchSamples subscriptionID al (batch.map ent)) (batchResourceIDs l) []]
    congr 1
    rw [foldl_append_eq_flatten]
    have hbs : ∀ b : List String,
        batchSamples subscriptionID al (b.map ent)
          = b.flatMap (fun id => processMetricData subscriptionID al (ent id)) := by
      intro b
      unfold batchSamples
      simp [List.flatMap_def, List.map_map, Function.comp_def]
    calc ([] : List Sample)
          ++ ((batchResourceIDs l).map
            (fun b => batchSamples subscriptionID al (b.map ent))).flatten
        = ((batchResourceIDs l).map
            (fun b => b.flatMap
              (fun id => processMetricData subscriptionID al (ent id)))).flatten := by
          simp only [List.nil_append]
          congr 1
          exact List.map_congr_left (fun b _ => hbs b)
      _ = (batchResourceIDs l).flatten.flatMap
            (fun id => processMetricData subscriptionID al (ent id)) :=
          flatten_map_flatMap _ _
      _ = l.flatMap (fun id => processMetricData subscriptionID al (ent id)) := by
          rw [batchResourceIDs_join]

/-- Witness for C3 at a concrete bucket of 50 resource IDs. -/
theorem C3_batch_limit_witness :
    1 ≤ (List.replicate 50 "vm").length
    ∧ ((∀ b ∈ batchResourceIDs (List.replicate 50 "vm"), b.length ≤ 50)
      ∧ (batchResourceIDs (List.replicate 50 "vm")).length
          = ((List.replicate 50 "vm").length + 49) / 50
      ∧ (batchResourceIDs (List.replicate 50 "vm")).flatten = List.replicate 50 "vm"
      ∧ ((List.replicate 50 "vm").length = 50 →
          batchResourceIDs (List.replicate 50 "vm") = [List.replicate 50 "vm"])
      ∧ ∀ (subscriptionID : String) (al : AdditionalLabels) (ent : String → MetricData),
          fetchMetricsPerSubscription subscriptionID (List.replicate 50 "vm") al
              (fun batch => .ok (batch.map ent))
            = .ok ((List.replicate 50 "vm").flatMap
                fun id => processMetricData subscriptionID al (ent id))) :=
  ⟨by decide, C3_batch_limit _ (by decide)⟩

theorem map_value_filterMap (l : List (String × Option ℚ)) (g : String → ℚ → Sample)
    (hg : ∀ k v, (g k v).value = v) :
    ((l.filterMap fun p => p.2.map (g p.1)).map (fun s => s.value))
      = l.filterMap (fun p => p.2) := by
  induction l with
  | nil => rfl
  | cons p t ih =>
      rcases p with ⟨k, v⟩
      cases v with
      | none => simpa using ih
      | some v => simpa [hg] using ih

/-- Claim C2: for a metric entity, the per-aggregation retained value is the
one at the strictly latest timestamp (a point at `T2 > T1` wins; a later point
that merely ties the latest timestamp is ignored, keeping the first-seen
value), and aggregation kinds whose retained value is `nil` are omitted from
the emitted samples rather than emitted as zero: the emitted values are
exactly the non-`nil` aggregation values retained at the latest timestamp. -/
theorem C2_latest_sample_selection (subscriptionID : String) (md : MetricData)
    (m : Metric) (meta : List (String × String)) (p1 p2 q : MetricValue)
    (hmd : md.Values = [m])
    (hm : m.TimeSeries = [⟨meta, [p1, p2, q]⟩])
    (herr : m.ErrorCode = none)
    (h12 : p1.TimeStamp < p2.TimeStamp)
    (hq : q.TimeStamp = p2.TimeStamp) :
    ([p1, p2, q].foldl updateLatest (0, LatestMetric.init))
      = (p2.TimeStamp, ⟨p2.Total, p2.Average, p2.Count, p2.Minimum, p2.Maximum⟩)
    ∧ (processMetricData subscriptionID [] md).map (fun s => s.value)
      = (aggregationEntries
          ⟨p2.Total, p2.Average, p2.Count, p2.Minimum, p2.Maximum⟩).filterMap
          (fun p => p.2) := by
  have hscan : ([p1, p2, q].foldl updateLatest (0, LatestMetric.init))
      = (p2.TimeStamp, ⟨p2.Total, p2.Average, p2.Count, p2.Minimum, p2.Maximum⟩) := by
    simp only [List.foldl_cons, List.foldl_nil]
    by_cases h1 : (0 : Nat) < p1.TimeStamp
    · have e1 : updateLatest (0, LatestMetric.init) p1
          = (p1.TimeStamp, ⟨p1.Total, p1.Average, p1.Count, p1.Minimum, p1.Maximum⟩) := by
        rw [updateLatest, if_pos h1]
      rw [e1]
      have e2 : updateLatest
          (p1.TimeStamp, ⟨p1.Total, p1.Average, p1.Count, p1.Minimum, p1.Maximum⟩) p2
          = (p2.TimeStamp, ⟨p2.Total, p2.Average, p2.Count, p2.Minimum, p2.Maximum⟩) := by
        rw [updateLatest, if_pos h12]
      rw [e2, updateLatest, if_neg (by simp; omega)]
    · have e1 : updateLatest (0, LatestMetric.init) p1 = (0, LatestMetric.init) := by
        rw [updateLatest, if_neg h1]
      rw [e1]
      have e2 : updateLatest (0, LatestMetric.init) p2
          = (p2.TimeStamp, ⟨p2.Total, p2.Average, p2.Count, p2.Minimum, p2.Maximum⟩) := by
        rw [updateLatest, if_pos (by omega)]
      rw [e2, updateLatest, if_neg (by simp; omega)]
  refine ⟨hscan, ?_⟩
  unfold processMetricData
  rw [hmd]
  simp only [List.foldl_cons, List.foldl_nil]
  rw [processMetric, if_neg (by simp [herr])]
  rw [hm]
  simp only [List.foldl_cons, List.foldl_nil, List.nil_append]
  have hscan' := hscan
  simp only [List.foldl_cons, List.foldl_nil] at hscan'
  rw [hscan']
  unfold emitMetricSamples
  exact map_value_filterMap _
    (fun k v =>
      { name := buildFQName ("azure_monitor_" ++ sanitizeMetricNamespace md.Namespace)
          (sanitizeMetricName m.Name) (k ++ "_" ++ goToLower m.Unit)
        help := m.NameLocalizedValue ++ ": " ++ m.DisplayDescription
        labels := (List.foldl (fun l p => insertLabel l p.1 p.2)
          (List.foldl (fun l p => insertLabel l p.1 p.2)
            [("subscription_id", subscriptionID), ("region", md.ResourceRegion),
             ("instance", md.ResourceID)]
            (AdditionalLabels.get [] md.ResourceID))
          meta)
        value := v })
    (fun _ _ => rfl)

/-- Witness for C2 at concrete data points (total present at T2, average only
at T1 and hence `nil` at the retained timestamp, with a tying third point). -/
theorem C2_latest_sample_selection_witness :
    (MetricData.Values
        ⟨"ns", "vm1", "westeurope",
         [⟨"m", "M", "d", "Count", none,
           [⟨[], [⟨1, some 5, some 7, none, none, none⟩,
                  ⟨2, some 9, none, none, none, none⟩,
                  ⟨2, some 4, some 3, none, none, none⟩]⟩]⟩]⟩
      = [⟨"m", "M", "d", "Count", none,
           [⟨[], [⟨1, some 5, some 7, none, none, none⟩,
                  ⟨2, some 9, none, none, none, none⟩,
                  ⟨2, some 4, some 3, none, none, none⟩]⟩]⟩])
    ∧ (1 : Nat) < 2
    ∧ (([⟨1, some 5, some 7, none, none, none⟩,
         ⟨2, some 9, none, none, none, none⟩,
         ⟨2, some 4, some 3, none, none, none⟩]
          : List MetricValue).foldl updateLatest (0, LatestMetric.init)
        = (2, ⟨some 9, none, none, none, none⟩)
      ∧ (processMetricData "sub" []
          ⟨"ns", "vm1", "westeurope",
           [⟨"m", "M", "d", "Count", none,
             [⟨[], [⟨1, some 5, some 7, none, none, none⟩,
                    ⟨2, some 9, none, none, none, none⟩,
                    ⟨2, some 4, some 3, none, none, none⟩]⟩]⟩]⟩).map (fun s => s.value)
        = (aggregationEntries ⟨some 9, none, none, none, none⟩).filterMap
            (fun p => p.2)) :=
  ⟨rfl, by decide,
    C2_latest_sample_selection "sub" _ _ [] _ _ _ rfl rfl rfl (by decide) rfl⟩

theorem foldl_updateLatest_stale (l : List MetricValue) (st : Nat × LatestMetric)
    (h : ∀ d ∈ l, d.TimeStamp ≤ st.1) : l.foldl updateLatest st = st := by
  induction l with
  | nil => rfl
  | cons d t ih =>
      have hd : updateLatest st d = st := by
        rw [updateLatest, if_neg]
        have := h d (by simp)
        omega
      rw [List.foldl_cons, hd]
      exact ih (fun d hdm => h d (by simp [hdm]))

/-- Claim C10: the `latestTimestamp`/`latestMetric` selection state is reset
once per metric entity and shared across all metrics of that entity: when
every data point of the entity's second metric is at or before the latest
timestamp seen while processing the first metric, the second metric's samples
are emitted from the values retained from the first metric (the same
`latestMetric` appears in both emissions) instead of its own values. -/
theorem C10_latest_state_shared_across_metrics (subscriptionID : String)
    (md : MetricData) (m1 m2 : Metric) (ts1 ts2 : TimeSeriesElement)
    (hmd : md.Values = [m1, m2])
    (h1 : m1.TimeSeries = [ts1]) (h2 : m2.TimeSeries = [ts2])
    (he1 : m1.ErrorCode = none) (he2 : m2.ErrorCode = none)
    (hmeta1 : ts1.MetadataValues = []) (hmeta2 : ts2.MetadataValues = [])
    (hstale : ∀ d ∈ ts2.Data,
        d.TimeStamp ≤ (ts1.Data.foldl updateLatest (0, LatestMetric.init)).1) :
    processMetricData subscriptionID [] md
      = emitMetricSamples ("azure_monitor_" ++ sanitizeMetricNamespace md.Namespace)
          [("subscription_id", subscriptionID), ("region", md.ResourceRegion),
           ("instance", md.ResourceID)] m1
          (ts1.Data.foldl updateLatest (0, LatestMetric.init)).2
        ++ emitMetricSamples ("azure_monitor_" ++ sanitizeMetricNamespace md.Namespace)
          [("subscription_id", subscriptionID), ("region", md.ResourceRegion),
           ("instance", md.ResourceID)] m2
          (ts1.Data.foldl updateLatest (0, LatestMetric.init)).2 := by
  unfold processMetricData processMetric
  rw [hmd]
  simp only [List.foldl_cons, List.foldl_nil, h1, h2, he1, he2, hmeta1, hmeta2,
    AdditionalLabels.get, List.lookup_nil, Option.getD_none, Option.isSome_none,
    Bool.false_eq_true, false_and, if_false, List.nil_append, Prod.mk.eta]
  rw [foldl_updateLatest_stale ts2.Data _ hstale]

/-- Witness for C10: a second metric whose only data point (timestamp 3,
average 2) is older than the first metric's point (timestamp 5, average 1);
both emissions use the first metric's retained state. -/
theorem C10_latest_state_shared_across_metrics_witness :
    (MetricData.Values
        ⟨"ns", "vm1", "westeurope",
          [⟨"m1", "M1", "d1", "Count", none, [⟨[], [⟨5, none, some 1, none, none, none⟩]⟩]⟩,
           ⟨"m2", "M2", "d2", "Count", none, [⟨[], [⟨3, none, some 2, none, none, none⟩]⟩]⟩]⟩
      = [⟨"m1", "M1", "d1", "Count", none, [⟨[], [⟨5, none, some 1, none, none, none⟩]⟩]⟩,
         ⟨"m2", "M2", "d2", "Count", none, [⟨[], [⟨3, none, some 2, none, none, none⟩]⟩]⟩])
    ∧ (∀ d ∈ ([⟨3, none, some 2, none, none, none⟩] : List MetricValue),
        d.TimeStamp
          ≤ (([⟨5, none, some 1, none, none, none⟩] : List MetricValue).foldl
              updateLatest (0, LatestMetric.init)).1)
    ∧ processMetricData "sub" []
        ⟨"ns", "vm1", "westeurope",
          [⟨"m1", "M1", "d1", "Count", none, [⟨[], [⟨5, none, some 1, none, none, none⟩]⟩]⟩,
           ⟨"m2", "M2", "d2", "Count", none, [⟨[], [⟨3, none, some 2, none, none, none⟩]⟩]⟩]⟩
      = emitMetricSamples ("azure_monitor_" ++ sanitizeMetricNamespace "ns")
          [("subscription_id", "sub"), ("region", "westeurope"), ("instance", "vm1")]
          ⟨"m1", "M1", "d1", "Count", none, [⟨[], [⟨5, none, some 1, none, none, none⟩]⟩]⟩
          (([⟨5, none, some 1, none, none, none⟩] : List MetricValue).foldl
            updateLatest (0, LatestMetric.init)).2
        ++ emitMetricSamples ("azure_monitor_" ++ sanitizeMetricNamespace "ns")
          [("subscription_id", "sub"), ("region", "westeurope"), ("instance", "vm1")]
          ⟨"m2", "M2", "d2", "Count", none, [⟨[], [⟨3, none, some 2, none, none, none⟩]⟩]⟩
          (([⟨5, none, some 1, none, none, none⟩] : List MetricValue).foldl
            updateLatest (0, LatestMetric.init)).2 :=
  ⟨rfl, by decide,
    C10_latest_state_shared_across_metrics "sub" _ _ _ _ _
      rfl rfl rfl rfl rfl rfl rfl (by decide)⟩

theorem processMetric_skip_error (pns : String) (st : EntityState) (m : Metric)
    (hm : ∃ c, m.ErrorCode = some c ∧ c ≠ "Success") :
    processMetric pns st m = st := by
  obtain ⟨c, hc, hne⟩ := hm
  rw [processMetric, if_pos]
  exact ⟨by simp [hc], by simp [hc, hne]⟩

theorem foldl_processMetric_all_error (pns : String) (ms : List Metric)
    (st : EntityState)
    (h : ∀ m ∈ ms, ∃ c, m.ErrorCode = some c ∧ c ≠ "Success") :
    ms.foldl (processMetric pns) st = st := by
  induction ms generalizing st with
  | nil => rfl
  | cons m t ih =>
      rw [List.foldl_cons, processMetric_skip_error pns st m (h m (by simp))]
      exact ih st (fun m hm => h m (by simp [hm]))

theorem foldlM_ok_of {β γ : Type} (f : γ → β → Except String γ) (l : List β)
    (acc : γ) (h : ∀ a b, ∃ c, f a b = .ok c) :
    ∃ c, l.foldlM f acc = .ok c := by
  induction l generalizing acc with
  | nil => exact ⟨acc, rfl⟩
  | cons x xs ih =>
      obtain ⟨c, hc⟩ := h acc x
      obtain ⟨c2, hc2⟩ := ih c
      refine ⟨c2, ?_⟩
      rw [List.foldlM_cons, hc]
      exact hc2

theorem fetchMetricsPerSubscription_ok (subscriptionID : String)
    (ids : List String) (al : AdditionalLabels)
    (api : List String → Except String (List MetricData))
    (hapi : ∀ b, ∃ v, api b = .ok v) :
    ∃ s, fetchMetricsPerSubscription subscriptionID ids al api = .ok s := by
  unfold fetchMetricsPerSubscription
  apply foldlM_ok_of
  intro acc b
  obtain ⟨v, hv⟩ := hapi b
  exact ⟨acc ++ batchSamples subscriptionID al v, by rw [hv]⟩

theorem fetchMetrics_ok (res : Resources)
    (api : String → String → List String → Except String (List MetricData))
    (hapi : ∀ loc sub b, ∃ v, api loc sub b = .ok v) :
    ∃ s, fetchMetrics res api = .ok s := by
  unfold fetchMetrics
  apply foldlM_ok_of
  intro acc p
  apply foldlM_ok_of
  intro a q
  obtain ⟨s, hs⟩ := fetchMetricsPerSubscription_ok q.1 q.2 res.AdditionalLabels
    (api p.1 q.1) (fun b => hapi p.1 q.1 b)
  exact ⟨a ++ s, by rw [hs]; rfl⟩

/-- Claim C7: a metric entity whose metrics report an explicit non-`"Success"`
error code is skipped (yields no samples) while the batch and the whole fetch
continue: the batch output equals the output without the failed entity, and
the scrape still reports success 1. -/
theorem C7_per_resource_error_tolerated (subscriptionID : String)
    (al : AdditionalLabels) (md : MetricData) (l1 l2 : List MetricData)
    (res : Resources)
    (hfail : ∀ m ∈ md.Values, ∃ c, m.ErrorCode = some c ∧ c ≠ "Success") :
    processMetricData subscriptionID al md = []
    ∧ batchSamples subscriptionID al (l1 ++ md :: l2)
        = batchSamples subscriptionID al (l1 ++ l2)
    ∧ (collect (.ok res) (fun _ _ _ => .ok (l1 ++ md :: l2))).2 = 1 := by
  have hmd : processMetricData subscriptionID al md = [] := by
    simp only [processMetricData]
    rw [foldl_processMetric_all_error _ _ _ hfail]
  refine ⟨hmd, ?_, ?_⟩
  · unfold batchSamples
    simp [hmd]
  · obtain ⟨s, hs⟩ := fetchMetrics_ok res (fun _ _ _ => .ok (l1 ++ md :: l2))
      (fun _ _ _ => ⟨_, rfl⟩)
    simp [collect, hs]

/-- Witness for C7: among two resources, the second one's metric reports
error code `"Throttled"`; its samples vanish, the first one's remain, and the
scrape succeeds. -/
theorem C7_per_resource_error_tolerated_witness :
    (∀ m ∈ (MetricData.Values
        ⟨"ns", "vm2", "westeurope",
         [⟨"m", "M", "d", "Count", some "Throttled",
           [⟨[], [⟨1, none, some 2, none, none, none⟩]⟩]⟩]⟩),
      ∃ c, m.ErrorCode = some c ∧ c ≠ "Success")
    ∧ processMetricData "sub" []
        ⟨"ns", "vm2", "westeurope",
         [⟨"m", "M", "d", "Count", some "Throttled",
           [⟨[], [⟨1, none, some 2, none, none, none⟩]⟩]⟩]⟩ = []
    ∧ batchSamples "sub" []
        ([⟨"ns", "vm1", "westeurope",
           [⟨"m", "M", "d", "Count", none,
             [⟨[], [⟨1, none, some 1, none, none, none⟩]⟩]⟩]⟩]
          ++ ⟨"ns", "vm2", "westeurope",
               [⟨"m", "M", "d", "Count", some "Throttled",
                 [⟨[], [⟨1, none, some 2, none, none, none⟩]⟩]⟩]⟩ :: [])
      = batchSamples "sub" []
          ([⟨"ns", "vm1", "westeurope",
             [⟨"m", "M", "d", "Count", none,
               [⟨[], [⟨1, none, some 1, none, none, none⟩]⟩]⟩]⟩] ++ [])
    ∧ (collect (.ok ⟨[], []⟩)
        (fun _ _ _ => .ok
          ([⟨"ns", "vm1", "westeurope",
             [⟨"m", "M", "d", "Count", none,
               [⟨[], [⟨1, none, some 1, none, none, none⟩]⟩]⟩]⟩]
            ++ ⟨"ns", "vm2", "westeurope",
                 [⟨"m", "M", "d", "Count", some "Throttled",
                   [⟨[], [⟨1, none, some 2, none, none, none⟩]⟩]⟩]⟩ :: []))).2 = 1 := by
  have hfail : ∀ m ∈ (MetricData.Values
      ⟨"ns", "vm2", "westeurope",
       [⟨"m", "M", "d", "Count", some "Throttled",
         [⟨[], [⟨1, none, some 2, none, none, none⟩]⟩]⟩]⟩),
      ∃ c, m.ErrorCode = some c ∧ c ≠ "Success" := by
    intro m hm
    simp only [List.mem_singleton] at hm
    subst hm
    exact ⟨"Throttled", rfl, by decide⟩
  exact ⟨hfail,
    C7_per_resource_error_tolerated "sub" [] _ _ [] ⟨[], []⟩ hfail⟩

/-- Claim C1 counterexample: an inventory response with `count = 0` (well-
formed envelope, `ResultTruncated` and `Data` present) makes discovery fail
with a "no rows returned" error — not return an empty inventory — and the
scrape reports success 0, contradicting the claimed success 1. -/
theorem C1_counterexample :
    resourceGraphQuery ⟨some "false", some [], some 0, none⟩
      = .error "error querying resource graph: no rows returned"
    ∧ queryResources [⟨some "false", some [], some 0, none⟩]
      = .error "error querying resource graph: no rows returned"
    ∧ (collect (queryResources [⟨some "false", some [], some 0, none⟩])
        (fun _ _ _ => .ok [])).2 = 0 :=
  ⟨rfl, rfl, rfl⟩

/-- Claim C1 (amended): when the inventory API reports a row count of zero,
`resourceGraphQuery` returns a "no rows returned" error, so discovery fails,
the fetch phase is never entered, and the scrape reports success 0 with no
synthesized samples. -/
theorem C1_count_zero_is_error (resp : GraphResponse) (rest : List GraphResponse)
    (api : String → String → List String → Except String (List MetricData))
    (ht : resp.ResultTruncated.isSome) (hd : resp.Data.isSome)
    (hc : resp.Count = some 0) :
    queryResources (resp :: rest)
      = .error "error querying resource graph: no rows returned"
    ∧ collect (queryResources (resp :: rest)) api = ([], 0) := by
  have hq : resourceGraphQuery resp
      = .error "error querying resource graph: no rows returned" := by
    rw [resourceGraphQuery, if_neg, if_pos hc]
    simp only [Option.isNone_iff_eq_none]
    push_neg
    exact ⟨Option.isSome_iff_ne_none.mp ht, Option.isSome_iff_ne_none.mp hd,
      by simp [hc]⟩
  have hloop : queryResources (resp :: rest)
      = .error "error querying resource graph: no rows returned" := by
    unfold queryResources queryResourcesLoop
    rw [hq]
  exact ⟨hloop, by rw [collect.eq_def, hloop]⟩

/-- Witness for C1 (amended) at the concrete `count = 0` response. -/
theorem C1_count_zero_is_error_witness :
    (GraphResponse.ResultTruncated ⟨some "false", some [], some 0, none⟩).isSome
    ∧ (GraphResponse.Data ⟨some "false", some [], some 0, none⟩).isSome
    ∧ (GraphResponse.Count ⟨some "false", some [], some 0, none⟩) = some 0
    ∧ queryResources [⟨some "false", some [], some 0, none⟩]
        = .error "error querying resource graph: no rows returned"
    ∧ collect (queryResources [⟨some "false", some [], some 0, none⟩])
        (fun _ _ _ => .error "unused") = ([], 0) := by
  refine ⟨rfl, rfl, rfl, ?_, ?_⟩
  · exact (C1_count_zero_is_error ⟨some "false", some [], some 0, none⟩ []
      (fun _ _ _ => .error "unused") rfl rfl rfl).1
  · exact (C1_count_zero_is_error ⟨some "false", some [], some 0, none⟩ []
      (fun _ _ _ => .error "unused") rfl rfl rfl).2

theorem wrap64_eq_self (x : Int) (hl : -(2 ^ 63) ≤ x) (hu : x < 2 ^ 63) :
    wrap64 x = x := by
  unfold wrap64
  rw [Int.emod_eq_of_lt (by omega) (by omega)]
  omega

/-- Claim C6 counterexample: the header value `"-1"` parses successfully, so
the default does not apply, and the computed timeout is −1.5 seconds — the
effective timeout is not strictly positive for every possible header value. -/
theorem C6_counterexample :
    goParseInt64 "-1" = (-1, true)
    ∧ getProbeTimeout "-1" = -1500000000
    ∧ ¬ 0 < getProbeTimeout "-1" := by
  refine ⟨by decide, by decide, by decide⟩

/-- Claim C6 (amended): the effective timeout is the header-parsed scrape
timeout in seconds (defaulting to 10 when the header is absent, zero, or a
parse failure yielding zero) times 1000 minus a 0.5 s margin, in wrapping
`int64` arithmetic: an absent or zero-parsing header gives exactly 9.5 s; an
effective seconds value between 1 and 9223372037 gives the unwrapped, strictly
positive value — but the timeout is not positive for every header value:
every effective seconds value between -9223372035 and -1 gives a strictly
negative timeout. -/
theorem C6_timeout_positive_range (header : String) :
    ((header = "" ∨ (goParseInt64 header).1 = 0) →
      effectiveTimeoutSeconds header = 10 ∧ getProbeTimeout header = 9500000000)
    ∧ (1 ≤ effectiveTimeoutSeconds header →
       effectiveTimeoutSeconds header ≤ 9223372037 →
       getProbeTimeout header
         = (effectiveTimeoutSeconds header * 1000 - 500) * 1000000
       ∧ 0 < getProbeTimeout header)
    ∧ (-9223372035 ≤ effectiveTimeoutSeconds header →
       effectiveTimeoutSeconds header ≤ -1 →
       getProbeTimeout header < 0) := by
  refine ⟨?_, ?_, ?_⟩
  · intro h
    have hts : effectiveTimeoutSeconds header = 10 := by
      by_cases hh : header = ""
      · simp [effectiveTimeoutSeconds, hh]
      · rcases h with h | h
        · exact absurd h hh
        · simp [effectiveTimeoutSeconds, hh, h]
    refine ⟨hts, ?_⟩
    rw [getProbeTimeout, hts]
    decide
  · intro h1 h2
    have hInner : wrap64 (effectiveTimeoutSeconds header * 1000 - 500)
        = effectiveTimeoutSeconds header * 1000 - 500 :=
      wrap64_eq_self _ (by nlinarith) (by nlinarith)
    have hOuter : wrap64 ((effectiveTimeoutSeconds header * 1000 - 500) * 1000000)
        = (effectiveTimeoutSeconds header * 1000 - 500) * 1000000 :=
      wrap64_eq_self _ (by nlinarith) (by nlinarith)
    have he : getProbeTimeout header
        = (effectiveTimeoutSeconds header * 1000 - 500) * 1000000 := by
      rw [getProbeTimeout, hInner, hOuter]
    exact ⟨he, by rw [he]; nlinarith⟩
  · intro hl hu
    have hInner : wrap64 (effectiveTimeoutSeconds header * 1000 - 500)
        = effectiveTimeoutSeconds header * 1000 - 500 :=
      wrap64_eq_self _ (by nlinarith) (by nlinarith)
    have hOuter : wrap64 ((effectiveTimeoutSeconds header * 1000 - 500) * 1000000)
        = (effectiveTimeoutSeconds header * 1000 - 500) * 1000000 :=
      wrap64_eq_self _ (by nlinarith) (by nlinarith)
    rw [getProbeTimeout, hInner, hOuter]
    nlinarith

/-- Witness for C6 (amended): the absent header takes the 10 s default and
yields exactly 9.5 s; the header `10` falls in the positive band; the header
`-1` falls in the negative band. -/
theorem C6_timeout_positive_range_witness :
    (effectiveTimeoutSeconds "" = 10 ∧ getProbeTimeout "" = 9500000000)
    ∧ (1 ≤ effectiveTimeoutSeconds "10"
      ∧ effectiveTimeoutSeconds "10" ≤ 9223372037
      ∧ (getProbeTimeout "10"
          = (effectiveTimeoutSeconds "10" * 1000 - 500) * 1000000
        ∧ 0 < getProbeTimeout "10"))
    ∧ (-9223372035 ≤ effectiveTimeoutSeconds "-1"
      ∧ effectiveTimeoutSeconds "-1" ≤ -1
      ∧ getProbeTimeout "-1" < 0) :=
  ⟨(C6_timeout_positive_range "").1 (Or.inl rfl),
   ⟨by decide, by decide,
    (C6_timeout_positive_range "10").2.1 (by decide) (by decide)⟩,
   ⟨by decide, by decide,
    (C6_timeout_positive_range "-1").2.2 (by decide) (by decide)⟩⟩

theorem sha256Round_length (st : List Nat) (kw : Nat × Nat) :
    (sha256Round st kw).length = st.length := by
  unfold sha256Round
  rcases st with _ | ⟨a, _ | ⟨b, _ | ⟨c, _ | ⟨d, _ | ⟨e, _ | ⟨f, _ | ⟨g, _ | ⟨h, _ | ⟨i, t⟩⟩⟩⟩⟩⟩⟩⟩⟩ <;> rfl

theorem foldl_sha256Round_length (l : List (Nat × Nat)) (st : List Nat) :
    (l.foldl sha256Round st).length = st.length := by
  induction l generalizing st with
  | nil => rfl
  | cons x xs ih => rw [List.foldl_cons, ih, sha256Round_length]

theorem sha256Compress_length (hs block : List Nat) :
    (sha256Compress hs block).length = hs.length := by
  unfold sha256Compress
  simp [foldl_sha256Round_length]

theorem foldl_sha256Compress_length (blocks : List (List Nat)) (hs : List Nat) :
    (blocks.foldl sha256Compress hs).length = hs.length := by
  induction blocks generalizing hs with
  | nil => rfl
  | cons b bs ih => rw [List.foldl_cons, ih, sha256Compress_length]

theorem length_flatMap_const {α β : Type} (l : List α) (f : α → List β) (n : Nat)
    (hf : ∀ x, (f x).length = n) : (l.flatMap f).length = n * l.length := by
  induction l with
  | nil => simp
  | cons x t ih =>
      simp only [List.flatMap_cons, List.length_append, hf, ih, List.length_cons]
      ring

theorem sha256Bytes_length (msg : List Nat) : (sha256Bytes msg).length = 32 := by
  unfold sha256Bytes
  rw [length_flatMap_const _
    (fun h => [h >>> 24 % 256, h >>> 16 % 256, h >>> 8 % 256, h % 256]) 4
    (fun _ => rfl), foldl_sha256Compress_length]
  rfl

theorem string_mk_length (l : List Char) : (String.mk l).length = l.length := rfl

theorem cacheKey_length (q rt : String) (subs : List String) :
    (cacheKey q rt subs).length = 64 := by
  unfold cacheKey hexEncode
  rw [string_mk_length,
    length_flatMap_const _ (fun b => [hexDigit (b / 16), hexDigit (b % 16)]) 2
      (fun _ => rfl),
    sha256Bytes_length]

/-- Claim C4 counterexample: the subscription list is joined in request order
without sorting, so two requests with the same subscription set in different
order get different cache keys (the claim requires them to share one). -/
theorem C4_counterexample :
    (↑(["a", "b"] : List String) : Multiset String)
      = (↑(["b", "a"] : List String) : Multiset String)
    ∧ cacheKey "q" "t" ["a", "b"] ≠ cacheKey "q" "t" ["b", "a"] := by
  constructor
  · decide
  · decide

/-- Claim C4 (amended): when the cache TTL is non-zero, the inventory cache
key is a fixed-length (64 hex character) SHA-256 hash of (query text,
resource type, comma-joined subscription list *in request order*),
deterministically, so two requests with identical discovery parameters —
including the subscription order — map to the same key and share one cached
inventory: the second request hits the entry stored by the first and invokes
no discovery. -/
theorem C4_cache_key_deterministic (config : Config) (probeSubs : List String)
    (now now2 : Int) (r : Resources) (d2 : Except String Resources)
    (httl : config.QueryCacheCacheExpiration ≠ 0)
    (hfresh : now2 ≤ now + config.QueryCacheCacheExpiration) :
    (cacheKey config.Query config.ResourceType
      (config.Subscriptions.getD probeSubs)).length = 64
    ∧ getResources config probeSubs [] now (.ok r)
      = .ok (r, [(cacheKey config.Query config.ResourceType
          (config.Subscriptions.getD probeSubs), r,
          now + config.QueryCacheCacheExpiration)], true)
    ∧ getResources config probeSubs
        [(cacheKey config.Query config.ResourceType
          (config.Subscriptions.getD probeSubs), r,
          now + config.QueryCacheCacheExpiration)] now2 d2
      = .ok (r, [(cacheKey config.Query config.ResourceType
          (config.Subscriptions.getD probeSubs), r,
          now + config.QueryCacheCacheExpiration)], false) := by
  refine ⟨cacheKey_length _ _ _, ?_, ?_⟩
  · rw [getResources.eq_def, if_neg httl]
    rfl
  · rw [getResources.eq_def, if_neg httl]
    have hget : cacheGet
        [(cacheKey config.Query config.ResourceType
            (config.Subscriptions.getD probeSubs), r,
          now + config.QueryCacheCacheExpiration)]
        (cacheKey config.Query config.ResourceType
          (config.Subscriptions.getD probeSubs)) now2
        = (some r,
          [(cacheKey config.Query config.ResourceType
              (config.Subscriptions.getD probeSubs), r,
            now + config.QueryCacheCacheExpiration)]) := by
      unfold cacheGet
      simp only [List.lookup, beq_self_eq_true, if_true]
      rw [if_neg (by omega)]
    simp only [hget]

/-- Witness for C4 (amended) at a concrete configuration with a 60-tick TTL. -/
theorem C4_cache_key_deterministic_witness :
    (Config.QueryCacheCacheExpiration
        ⟨some ["a"], "t", "q", "t", ["m"], "azure_monitor", 60, none, none, none, none⟩ ≠ 0)
    ∧ (1 : Int) ≤ 0 + Config.QueryCacheCacheExpiration
        ⟨some ["a"], "t", "q", "t", ["m"], "azure_monitor", 60, none, none, none, none⟩
    ∧ ((cacheKey "q" "t" ((some ["a"] : Option (List String)).getD [])).length = 64
      ∧ getResources
          ⟨some ["a"], "t", "q", "t", ["m"], "azure_monitor", 60, none, none, none, none⟩
          [] [] 0 (.ok ⟨[], []⟩)
        = .ok (⟨[], []⟩, [(cacheKey "q" "t"
            ((some ["a"] : Option (List String)).getD []), ⟨[], []⟩, 0 + 60)], true)
      ∧ getResources
          ⟨some ["a"], "t", "q", "t", ["m"], "azure_monitor", 60, none, none, none, none⟩
          [] [(cacheKey "q" "t" ((some ["a"] : Option (List String)).getD []),
               ⟨[], []⟩, 0 + 60)] 1 (.error "unused")
        = .ok (⟨[], []⟩, [(cacheKey "q" "t"
            ((some ["a"] : Option (List String)).getD []), ⟨[], []⟩, 0 + 60)], false)) :=
  ⟨by decide, by decide,
    C4_cache_key_deterministic
      ⟨some ["a"], "t", "q", "t", ["m"], "azure_monitor", 60, none, none, none, none⟩
      [] 0 1 ⟨[], []⟩ (.error "unused") (by decide) (by decide)⟩

/-- The published metric name as §4.5/§6 of the specification word it (a
    refinement-comparison definition following the spec's words, to be
    compared with the name construction in `emitMetricSamples`):
    `<prefix>_<sanitized namespace>_<sanitized metric name>_<aggregation>_<sanitized unit>`
    with `<prefix>` the configured metric prefix. -/
def specMetricName (metricPrefix ns name agg unit : String) : String :=
  metricPrefix ++ "_" ++ sanitizeMetricNamespace ns ++ "_" ++ sanitizeMetricName name
    ++ "_" ++ agg ++ "_" ++ goToLower unit

theorem string_ne_empty_of_length_pos (s : String) (h : 0 < s.length) : s ≠ "" := by
  intro he
  rw [he] at h
  exact absurd h (by decide)

theorem string_append_length (a b : String) :
    (a ++ b).length = a.length + b.length := String.length_append a b

theorem mem_insertLabel_of_ne (labels : List (String × String)) (k v k' v' : String)
    (h : (k, v) ∈ labels) (hne : k' ≠ k) : (k, v) ∈ insertLabel labels k' v' := by
  induction labels with
  | nil => cases h
  | cons p t ih =>
      rcases p with ⟨a, b⟩
      simp only [insertLabel]
      by_cases hp : a = k'
      · rw [if_pos hp]
        rcases List.mem_cons.mp h with heq | hm
        · have hka : k = a := (Prod.mk.injEq _ _ _ _ ▸ heq).1.symm ▸ rfl
          exact absurd (hka ▸ hp) (fun hh => hne hh.symm)
        · exact List.mem_cons_of_mem _ hm
      · rw [if_neg hp]
        rcases List.mem_cons.mp h with heq | hm
        · exact heq ▸ List.mem_cons_self _ _
        · exact List.mem_cons_of_mem _ (ih hm)

theorem mem_foldl_insertLabel (ps : List (String × String))
    (labels : List (String × String)) (k v : String)
    (h : (k, v) ∈ labels) (hne : ∀ p ∈ ps, p.1 ≠ k) :
    (k, v) ∈ ps.foldl (fun l p => insertLabel l p.1 p.2) labels := by
  induction ps generalizing labels with
  | nil => exact h
  | cons p t ih =>
      rw [List.foldl_cons]
      exact ih _ (mem_insertLabel_of_ne _ _ _ _ _ h (hne p (by simp)))
        (fun q hq => hne q (by simp [hq]))

theorem mem_insertLabel_self (labels : List (String × String)) (k v : String) :
    (k, v) ∈ insertLabel labels k v := by
  induction labels with
  | nil => exact List.mem_singleton.mpr rfl
  | cons p t ih =>
      rcases p with ⟨a, b⟩
      simp only [insertLabel]
      by_cases hp : a = k
      · rw [if_pos hp, hp]
        exact List.mem_cons_self _ _
      · rw [if_neg hp]
        exact List.mem_cons_of_mem _ ih

theorem mem_foldl_insertLabel_self (ps : List (String × String)) :
    ∀ labels : List (String × String),
    (ps.map Prod.fst).Nodup →
    ∀ p ∈ ps, p ∈ ps.foldl (fun l q => insertLabel l q.1 q.2) labels := by
  induction ps with
  | nil => intro labels _ p hp; cases hp
  | cons q t ih =>
      intro labels hnd p hp
      rw [List.map_cons, List.nodup_cons] at hnd
      rw [List.foldl_cons]
      rcases List.mem_cons.mp hp with rfl | hm
      · rcases p with ⟨k, v⟩
        exact mem_foldl_insertLabel t _ k v (mem_insertLabel_self labels k v)
          (fun r hr he => hnd.1 (List.mem_map.mpr ⟨r, hr, he⟩))
      · exact ih _ hnd.2 p hm

theorem emitMetricSamples_mem (pns : String) (labels : List (String × String))
    (m : Metric) (lm : LatestMetric) (s : Sample)
    (hs : s ∈ emitMetricSamples pns labels m lm) :
    ∃ agg ∈ ["total", "average", "count", "minimum", "maximum"],
      s.name = buildFQName pns (sanitizeMetricName m.Name)
        (agg ++ "_" ++ goToLower m.Unit)
      ∧ s.labels = labels := by
  unfold emitMetricSamples at hs
  rw [List.mem_filterMap] at hs
  obtain ⟨p, hp, hmap⟩ := hs
  rw [Option.map_eq_some'] at hmap
  obtain ⟨v, hv, hsample⟩ := hmap
  refine ⟨p.1, ?_, ?_, ?_⟩
  · have hp' : p = ("total", lm.total) ∨ p = ("average", lm.average)
        ∨ p = ("count", lm.count) ∨ p = ("minimum", lm.minimum)
        ∨ p = ("maximum", lm.maximum) := by
      simpa [aggregationEntries] using hp
    rcases hp' with rfl | rfl | rfl | rfl | rfl <;> simp
  · rw [← hsample]
  · rw [← hsample]

theorem buildFQName_eq (ns subsystem name : String) (hns : ns ≠ "")
    (hsub : subsystem ≠ "") (hname : name ≠ "") :
    buildFQName ns subsystem name = ns ++ "_" ++ subsystem ++ "_" ++ name := by
  rw [buildFQName, if_neg hname, if_pos ⟨hns, hsub⟩]

theorem buildFQName_specMetricName (ns name agg unit : String)
    (hname : sanitizeMetricName name ≠ "") :
    buildFQName ("azure_monitor_" ++ sanitizeMetricNamespace ns)
        (sanitizeMetricName name) (agg ++ "_" ++ goToLower unit)
      = specMetricName "azure_monitor" ns name agg unit := by
  have hpns : ("azure_monitor_" ++ sanitizeMetricNamespace ns) ≠ "" := by
    apply string_ne_empty_of_length_pos
    rw [string_append_length]
    have : ("azure_monitor_" : String).length = 14 := by decide
    omega
  have hagg : (agg ++ "_" ++ goToLower unit) ≠ "" := by
    apply string_ne_empty_of_length_pos
    rw [string_append_length, string_append_length]
    have : ("_" : String).length = 1 := by decide
    omega
  rw [buildFQName_eq _ _ _ hpns hname hagg]
  unfold specMetricName
  have hlit : ("azure_monitor_" : String) = "azure_monitor" ++ "_" := by decide
  rw [hlit]
  simp [String.append_assoc]

/-- Claim C5 counterexample: the probe configuration accepts a custom
`metricPrefix=custom`, yet the emitted sample name is built with the
hard-coded literal `azure_monitor` prefix and differs from the name the claim
requires with the configured prefix. -/
theorem C5_counterexample :
    (GetConfigFromRequest
        [("resourceType", ["Microsoft.Compute/virtualMachines"]),
         ("metricName", ["VmAvailabilityMetric"]),
         ("metricPrefix", ["custom"])]).map (fun c => c.MetricPrefix)
      = .ok "custom"
    ∧ (batchSamples "sub" []
        [⟨"Microsoft.Compute/virtualMachines", "vm1", "westeurope",
          [⟨"VmAvailabilityMetric", "VM Availability", "desc", "Count", none,
            [⟨[], [⟨1, none, some 1, none, none, none⟩]⟩]⟩]⟩]).map (fun s => s.name)
      = ["azure_monitor_microsoft_compute_virtualmachines_vmavailabilitymetric_average_count"]
    ∧ specMetricName "custom" "Microsoft.Compute/virtualMachines"
        "VmAvailabilityMetric" "average" "Count"
      = "custom_microsoft_compute_virtualmachines_vmavailabilitymetric_average_count"
    ∧ ("azure_monitor_microsoft_compute_virtualmachines_vmavailabilitymetric_average_count"
        : String)
      ≠ "custom_microsoft_compute_virtualmachines_vmavailabilitymetric_average_count" := by
  refine ⟨rfl, rfl, rfl, by decide⟩

/-- The per-sample conclusion of amended claim C5: the sample is named
    `azure_monitor_<sanitized namespace>_<sanitized metric name>_<aggregation>_<sanitized unit>`
    for one of the entity's metrics, that metric's first time series'
    metadata labels are all carried on the sample, and so are the three
    built-in labels and every discovery-time extra label of the resource. -/
abbrev sampleIdentity (subscriptionID : String) (extras : List (String × String))
    (md : MetricData) (s : Sample) : Prop :=
  (∃ m ∈ md.Values,
    (∃ agg ∈ ["total", "average", "count", "minimum", "maximum"],
      s.name = specMetricName "azure_monitor" md.Namespace m.Name agg m.Unit)
    ∧ ∃ ts0, ∃ rest, m.TimeSeries = ts0 :: rest
      ∧ ∀ p ∈ ts0.MetadataValues, p ∈ s.labels)
  ∧ ("subscription_id", subscriptionID) ∈ s.labels
  ∧ ("region", md.ResourceRegion) ∈ s.labels
  ∧ ("instance", md.ResourceID) ∈ s.labels
  ∧ ∀ p ∈ extras, p ∈ s.labels

/-- Claim C5 (amended): every emitted sample is named
`azure_monitor_<sanitized namespace>_<sanitized metric name>_<aggregation>_<sanitized unit>`
with the hard-coded literal `azure_monitor` — the configured metric prefix is
parsed but not used — and carries the labels `subscription_id`, `region` and
`instance=<resource id>`, every discovery-time extra label of the resource,
and every metadata label of the emitting metric's first time series (provided
sanitized metric names are non-empty and the extra/metadata label names are
duplicate-free and do not shadow the three built-ins or each other). -/
theorem C5_metric_identity (subscriptionID : String) (al : AdditionalLabels)
    (md : MetricData)
    (hname : ∀ m ∈ md.Values, sanitizeMetricName m.Name ≠ "")
    (hal : ∀ p ∈ al.get md.ResourceID,
      p.1 ≠ "subscription_id" ∧ p.1 ≠ "region" ∧ p.1 ≠ "instance")
    (halnd : ((al.get md.ResourceID).map Prod.fst).Nodup)
    (hmeta : ∀ m ∈ md.Values, ∀ ts ∈ m.TimeSeries, ∀ p ∈ ts.MetadataValues,
      p.1 ≠ "subscription_id" ∧ p.1 ≠ "region" ∧ p.1 ≠ "instance")
    (hmetaal : ∀ m ∈ md.Values, ∀ ts ∈ m.TimeSeries, ∀ p ∈ ts.MetadataValues,
      ∀ q ∈ al.get md.ResourceID, p.1 ≠ q.1)
    (hmetand : ∀ m ∈ md.Values, ∀ ts ∈ m.TimeSeries,
      (ts.MetadataValues.map Prod.fst).Nodup) :
    ∀ s ∈ processMetricData subscriptionID al md,
      sampleIdentity subscriptionID (al.get md.ResourceID) md s := by
  have key : ∀ (ms : List Metric) (st : EntityState),
      (∀ m ∈ ms, m ∈ md.Values) →
      (("subscription_id", subscriptionID) ∈ st.prometheusLabels
        ∧ ("region", md.ResourceRegion) ∈ st.prometheusLabels
        ∧ ("instance", md.ResourceID) ∈ st.prometheusLabels
        ∧ ∀ p ∈ al.get md.ResourceID, p ∈ st.prometheusLabels) →
      (∀ s ∈ st.samples, sampleIdentity subscriptionID (al.get md.ResourceID) md s) →
      (let st' := ms.foldl
        (processMetric ("azure_monitor_" ++ sanitizeMetricNamespace md.Namespace)) st
       (("subscription_id", subscriptionID) ∈ st'.prometheusLabels
        ∧ ("region", md.ResourceRegion) ∈ st'.prometheusLabels
        ∧ ("instance", md.ResourceID) ∈ st'.prometheusLabels
        ∧ ∀ p ∈ al.get md.ResourceID, p ∈ st'.prometheusLabels)
       ∧ ∀ s ∈ st'.samples, sampleIdentity subscriptionID (al.get md.ResourceID) md s) := by
    intro ms
    induction ms with
    | nil => intro st _ hlab hsamp; exact ⟨hlab, hsamp⟩
    | cons m t ih =>
        intro st hmem hlab hsamp
        rw [List.foldl_cons]
        apply ih _ (fun m' hm' => hmem m' (by simp [hm']))
        · -- labels preserved by one processMetric step
          rw [processMetric.eq_def]
          split
          · exact hlab
          · split
            · exact hlab
            · rename_i hts ts0 rest hts0
              refine ⟨?_, ?_, ?_, ?_⟩
              · exact mem_foldl_insertLabel _ _ _ _ hlab.1
                  (fun p hp => (hmeta m (hmem m (by simp)) ts0 (by rw [hts0]; simp) p hp).1)
              · exact mem_foldl_insertLabel _ _ _ _ hlab.2.1
                  (fun p hp => (hmeta m (hmem m (by simp)) ts0 (by rw [hts0]; simp) p hp).2.1)
              · exact mem_foldl_insertLabel _ _ _ _ hlab.2.2.1
                  (fun p hp => (hmeta m (hmem m (by simp)) ts0 (by rw [hts0]; simp) p hp).2.2)
              · intro q hq
                rcases q with ⟨qk, qv⟩
                exact mem_foldl_insertLabel _ _ _ _ (hlab.2.2.2 _ hq)
                  (fun p hp =>
                    hmetaal m (hmem m (by simp)) ts0 (by rw [hts0]; simp) p hp _ hq)
        · -- samples preserved/extended by one processMetric step
          intro s hs
          rw [processMetric.eq_def] at hs
          rcases Decidable.em
              (m.ErrorCode.isSome = true ∧ m.ErrorCode ≠ some "Success") with herr | herr
          · rw [if_pos herr] at hs
            exact hsamp s hs
          · rw [if_neg herr] at hs
            rcases hts : m.TimeSeries with _ | ⟨ts0, rest⟩
            · rw [hts] at hs
              exact hsamp s hs
            · rw [hts] at hs
              simp only [List.mem_append] at hs
              rcases hs with hs | hs
              · exact hsamp s hs
              · obtain ⟨agg, hagg, hname', hlabels⟩ := emitMetricSamples_mem _ _ _ _ _ hs
                refine ⟨⟨m, hmem m (by simp), ⟨agg, hagg, ?_⟩, ts0, rest, hts, ?_⟩,
                  ?_, ?_, ?_, ?_⟩
                · rw [hname',
                    buildFQName_specMetricName _ _ _ _ (hname m (hmem m (by simp)))]
                · intro p hp
                  rw [hlabels]
                  exact mem_foldl_insertLabel_self _ _
                    (hmetand m (hmem m (by simp)) ts0 (by rw [hts]; simp)) p hp
                · rw [hlabels]
                  exact mem_foldl_insertLabel _ _ _ _ hlab.1
                    (fun p hp => (hmeta m (hmem m (by simp)) ts0 (by rw [hts]; simp) p hp).1)
                · rw [hlabels]
                  exact mem_foldl_insertLabel _ _ _ _ hlab.2.1
                    (fun p hp => (hmeta m (hmem m (by simp)) ts0 (by rw [hts]; simp) p hp).2.1)
                · rw [hlabels]
                  exact mem_foldl_insertLabel _ _ _ _ hlab.2.2.1
                    (fun p hp => (hmeta m (hmem m (by simp)) ts0 (by rw [hts]; simp) p hp).2.2)
                · intro q hq
                  rw [hlabels]
                  rcases q with ⟨qk, qv⟩
                  exact mem_foldl_insertLabel _ _ _ _ (hlab.2.2.2 _ hq)
                    (fun p hp =>
                      hmetaal m (hmem m (by simp)) ts0 (by rw [hts]; simp) p hp _ hq)
  intro s hs
  simp only [processMetricData] at hs
  refine (key md.Values _ (fun _ h => h) ?_ (by intro s h; cases h)).2 s hs
  refine ⟨?_, ?_, ?_, ?_⟩
  · exact mem_foldl_insertLabel _ _ _ _ (by simp) (fun p hp => (hal p hp).1)
  · exact mem_foldl_insertLabel _ _ _ _ (by simp) (fun p hp => (hal p hp).2.1)
  · exact mem_foldl_insertLabel _ _ _ _ (by simp) (fun p hp => (hal p hp).2.2)
  · exact fun p hp => mem_foldl_insertLabel_self _ _ halnd p hp

/-- A one-metric entity carrying one metadata label, used to exercise the
    amended claim C5. -/
def mdC5 : MetricData :=
  ⟨"Microsoft.Compute/virtualMachines", "vm1", "westeurope",
   [⟨"VmAvailabilityMetric", "VM Availability", "desc", "Count", none,
     [⟨[("lun", "0")], [⟨1, none, some 1, none, none, none⟩]⟩]⟩]⟩

/-- Discovery-time extra labels of `vm1`, used to exercise the amended
    claim C5. -/
def alC5 : AdditionalLabels := [("vm1", [("env", "prod")])]

/-- The one sample the probe emits for `mdC5` under `alC5`. -/
def sampleC5 : Sample :=
  ⟨"azure_monitor_microsoft_compute_virtualmachines_vmavailabilitymetric_average_count",
   "VM Availability: desc",
   [("subscription_id", "sub"), ("region", "westeurope"), ("instance", "vm1"),
    ("env", "prod"), ("lun", "0")],
   1⟩

/-- Witness for C5 (amended) at the concrete entity `mdC5` with extra labels
`alC5`: all hypotheses hold there and the emitted sample satisfies the full
identity, including the extra label `env` and the metadata label `lun`. -/
theorem C5_metric_identity_witness :
    (∀ m ∈ mdC5.Values, sanitizeMetricName m.Name ≠ "")
    ∧ (∀ p ∈ AdditionalLabels.get alC5 mdC5.ResourceID,
        p.1 ≠ "subscription_id" ∧ p.1 ≠ "region" ∧ p.1 ≠ "instance")
    ∧ ((AdditionalLabels.get alC5 mdC5.ResourceID).map Prod.fst).Nodup
    ∧ (∀ m ∈ mdC5.Values, ∀ ts ∈ m.TimeSeries, ∀ p ∈ ts.MetadataValues,
        p.1 ≠ "subscription_id" ∧ p.1 ≠ "region" ∧ p.1 ≠ "instance")
    ∧ (∀ m ∈ mdC5.Values, ∀ ts ∈ m.TimeSeries, ∀ p ∈ ts.MetadataValues,
        ∀ q ∈ AdditionalLabels.get alC5 mdC5.ResourceID, p.1 ≠ q.1)
    ∧ (∀ m ∈ mdC5.Values, ∀ ts ∈ m.TimeSeries, (ts.MetadataValues.map Prod.fst).Nodup)
    ∧ sampleC5 ∈ processMetricData "sub" alC5 mdC5
    ∧ sampleIdentity "sub" (AdditionalLabels.get alC5 mdC5.ResourceID) mdC5 sampleC5 :=
  ⟨by decide, by decide, by decide, by decide, by decide, by decide, by decide,
   C5_metric_identity "sub" alC5 mdC5 (by decide) (by decide) (by decide)
     (by decide) (by decide) (by decide) sampleC5 (by decide)⟩

/-! ## Discovery bucket contents (for the duplication analysis) -/

/-- The resource-ID list of one (region, subscription) bucket of the
    assembled inventory. -/
def bucketGet (m : List (String × List (String × List String)))
    (loc sub : String) : List String :=
  (((m.lookup loc).getD []).lookup sub).getD []

/-- The resource ID a row contributes to the (loc, sub) bucket: its `id`
    field when the row is well-typed and matches that bucket. -/
def rowID (loc sub : String) (row : GoVal) : Option String :=
  match row with
  | .map r =>
    match r.lookup "subscriptionId", r.lookup "location", r.lookup "id" with
    | some (.str s), some (.str l), some (.str i) =>
      if l = loc ∧ s = sub then some i else none
    | _, _, _ => none
  | _ => none

theorem lookup_cons_eq {α : Type} (a : String) (b : α) (t : List (String × α))
    (k : String) :
    ((a, b) :: t).lookup k = if k = a then some b else t.lookup k := by
  simp only [List.lookup]
  by_cases h : k = a
  · rw [if_pos h]
    have hb : (k == a) = true := beq_iff_eq.mpr h
    rw [hb]
  · rw [if_neg h]
    have hb : (k == a) = false := beq_eq_false_iff_ne.mpr h
    rw [hb]

theorem lookup_updateAssoc {α : Type} (m : List (String × α)) (k : String)
    (dflt : α) (f : α → α) (k' : String) :
    (updateAssoc m k dflt f).lookup k'
      = if k' = k then some (f ((m.lookup k).getD dflt)) else m.lookup k' := by
  induction m with
  | nil =>
      simp only [updateAssoc, lookup_cons_eq, List.lookup_nil, Option.getD_none]
  | cons p t ih =>
      rcases p with ⟨a, b⟩
      simp only [updateAssoc]
      by_cases hak : a = k
      · subst hak
        rw [if_pos rfl, lookup_cons_eq, lookup_cons_eq]
        by_cases h : k' = a <;> simp [h, lookup_cons_eq]
      · have hka : ¬ k = a := fun hh => hak hh.symm
        rw [if_neg hak, lookup_cons_eq, lookup_cons_eq, ih]
        by_cases h1 : k' = a
        · subst h1
          simp [hak, lookup_cons_eq]
        · simp [h1, hka, lookup_cons_eq]

theorem bucketGet_appendBucket (m : List (String × List (String × List String)))
    (l s i loc sub : String) :
    bucketGet (appendBucket m l s i) loc sub
      = bucketGet m loc sub ++ (if l = loc ∧ s = sub then [i] else []) := by
  unfold bucketGet appendBucket
  rw [lookup_updateAssoc]
  by_cases hl : loc = l
  · subst hl
    rw [if_pos rfl, Option.getD_some, lookup_updateAssoc]
    by_cases hs : sub = s
    · subst hs
      rw [if_pos rfl, Option.getD_some, if_pos ⟨rfl, rfl⟩]
    · rw [if_neg hs, if_neg (fun hc => hs hc.2.symm), List.append_nil]
  · rw [if_neg hl, if_neg (fun hc => hl hc.1.symm), List.append_nil]

theorem except_map_ok {α β : Type} (f : α → β) (x : Except String α) (b : β)
    (h : x.map f = .ok b) : ∃ a, x = .ok a ∧ b = f a := by
  cases x with
  | error e => simp [Except.map] at h
  | ok a => exact ⟨a, rfl, by simpa [Except.map] using h.symm⟩

theorem processRow_bucket (rs rs' : Resources) (row : GoVal) (loc sub : String)
    (h : processRow rs row = .ok rs') :
    bucketGet rs'.Resources loc sub
      = bucketGet rs.Resources loc sub ++ (rowID loc sub row).toList := by
  rcases row with sv | r | _
  · exact absurd h (by simp [processRow])
  case map =>
    simp only [processRow] at h
    rcases hsub : r.lookup "subscriptionId" with _ | gs <;> rw [hsub] at h
    · exact absurd h (by simp)
    rcases gs with s' | rr | _
    case map => exact absurd h (by simp)
    case other => exact absurd h (by simp)
    rcases hloc : r.lookup "location" with _ | gl <;> rw [hloc] at h
    · exact absurd h (by simp)
    rcases gl with l' | rr | _
    case map => exact absurd h (by simp)
    case other => exact absurd h (by simp)
    rcases hid : r.lookup "id" with _ | gi <;> rw [hid] at h
    · exact absurd h (by simp)
    rcases gi with i' | rr | _
    case map => exact absurd h (by simp)
    case other => exact absurd h (by simp)
    obtain ⟨rs'', hw, hrs'⟩ := except_map_ok _ _ _ h
    have hres : rs''.Resources = rs.Resources := by
      by_cases hlen : 3 < r.length
      · rw [if_pos hlen] at hw
        obtain ⟨labels, _, hlab⟩ := except_map_ok _ _ _ hw
        rw [hlab]
      · rw [if_neg hlen] at hw
        have hw' : rs = rs'' := by
          have := hw
          injection this
        rw [← hw']
    rw [hrs']
    show bucketGet (appendBucket rs''.Resources l' s' i') loc sub = _
    rw [bucketGet_appendBucket, hres]
    simp only [rowID, hsub, hloc, hid]
    by_cases hmatch : l' = loc ∧ s' = sub
    · rw [if_pos hmatch, if_pos hmatch]
      rfl
    · rw [if_neg hmatch, if_neg hmatch]
      rfl
  · exact absurd h (by simp [processRow])

theorem foldlM_processRow_bucket (rows : List GoVal) (rs rs' : Resources)
    (loc sub : String) (h : rows.foldlM processRow rs = .ok rs') :
    bucketGet rs'.Resources loc sub
      = bucketGet rs.Resources loc sub ++ rows.filterMap (rowID loc sub) := by
  induction rows generalizing rs with
  | nil =>
      have h' : rs = rs' := by
        have h'' : (Except.ok rs : Except String Resources) = .ok rs' := h
        injection h''
      subst h'
      simp
  | cons row t ih =>
      rw [List.foldlM_cons] at h
      rcases hr : processRow rs row with e | rs1
      · rw [hr] at h
        have h' : (Except.error e : Except String Resources) = .ok rs' := h
        cases h'
      · rw [hr] at h
        have h' : t.foldlM processRow rs1 = .ok rs' := h
        have hb := processRow_bucket rs rs1 row loc sub hr
        rw [ih rs1 h', hb, List.filterMap_cons]
        cases hrow : rowID loc sub row
        · simp [hrow, Option.toList]
        · simp [hrow, Option.toList]

theorem processPage_bucket (rows : List GoVal) (rs rs' : Resources)
    (loc sub : String) (h : processPage rs rows = .ok rs') :
    bucketGet rs'.Resources loc sub
      = bucketGet rs.Resources loc sub ++ rows.filterMap (rowID loc sub) := by
  unfold processPage at h
  split at h
  · cases h
  · split at h
    · split at h
      · cases h
      · split at h
        · cases h
        · split at h
          · cases h
          · exact foldlM_processRow_bucket _ _ _ _ _ h
    · cases h

theorem resourceGraphQuery_rows (resp : GraphResponse) (rows : List GoVal)
    (tok : String) (h : resourceGraphQuery resp = .ok (rows, tok)) :
    resp.Data = some rows := by
  unfold resourceGraphQuery at h
  split at h
  · cases h
  · split at h
    · cases h
    · split at h
      · cases h
      · rename_i rows' hd
        split at h
        · cases h
        · have h' : rows' = rows := by
            injection h with h
            exact congrArg Prod.fst h
          rw [hd, h']

theorem queryResourcesLoop_bucket_sublist (responses : List GraphResponse)
    (rs rs' : Resources) (loc sub : String)
    (h : queryResourcesLoop rs responses = .ok rs') :
    (bucketGet rs'.Resources loc sub).Sublist
      (bucketGet rs.Resources loc sub
        ++ (responses.flatMap fun resp => resp.Data.getD []).filterMap
            (rowID loc sub)) := by
  induction responses generalizing rs with
  | nil =>
      have h' : rs = rs' := by
        have h'' : (Except.ok rs : Except String Resources) = .ok rs' := h
        injection h''
      subst h'
      exact List.sublist_append_left _ _
  | cons resp rest ih =>
      rw [queryResourcesLoop] at h
      rcases hq : resourceGraphQuery resp with e | p
      · simp only [hq] at h
        cases h
      rcases p with ⟨rows, tok⟩
      simp only [hq] at h
      rcases hp : processPage rs rows with e | rs1
      · simp only [hp] at h
        cases h
      simp only [hp] at h
      have hrows : resp.Data = some rows := resourceGraphQuery_rows resp rows tok hq
      have hb := processPage_bucket rows rs rs1 loc sub hp
      rw [List.flatMap_cons, hrows, Option.getD_some, List.filterMap_append,
        ← List.append_assoc, ← hb]
      by_cases ht : tok = ""
      · rw [if_pos ht] at h
        have h' : rs1 = rs' := by injection h
        subst h'
        exact List.sublist_append_left _ _
      · rw [if_neg ht] at h
        exact ih rs1 h

/-- Claim C8 counterexample: two pagination pages that both return the same
well-typed row (`id = "x"` in region `"l"`, subscription `"s"`) assemble an
inventory whose (l, s) bucket holds `["x", "x"]` — a duplicate within one
discovery pass. -/
theorem C8_counterexample :
    queryResources
        [⟨some "false",
          some [GoVal.map [("subscriptionId", GoVal.str "s"),
                           ("location", GoVal.str "l"),
                           ("id", GoVal.str "x")]],
          some 1, some "next"⟩,
         ⟨some "false",
          some [GoVal.map [("subscriptionId", GoVal.str "s"),
                           ("location", GoVal.str "l"),
                           ("id", GoVal.str "x")]],
          some 1, none⟩]
      = .ok ⟨[("l", [("s", ["x", "x"])])], []⟩
    ∧ ¬ (["x", "x"] : List String).Nodup :=
  ⟨rfl, by decide⟩

/-- Claim C8 (amended): within a single discovery pass the (region,
subscription) bucket lists the returned rows' resource IDs in response order
without de-duplication; it is duplicate-free provided the discovery responses
themselves never repeat a resource identifier for that bucket (which the
claimed invariant presupposes of the upstream API). -/
theorem C8_bucket_nodup (responses : List GraphResponse) (rs : Resources)
    (loc sub : String)
    (hok : queryResources responses = .ok rs)
    (hnodup : ((responses.flatMap fun resp => resp.Data.getD []).filterMap
        (rowID loc sub)).Nodup) :
    (bucketGet rs.Resources loc sub).Nodup := by
  have hsub := queryResourcesLoop_bucket_sublist responses ⟨[], []⟩ rs loc sub hok
  have hempty : bucketGet (Resources.mk [] []).Resources loc sub = [] := rfl
  rw [hempty, List.nil_append] at hsub
  exact List.Nodup.sublist hsub hnodup

/-- Witness for C8 (amended): one page with two distinct resource IDs. -/
theorem C8_bucket_nodup_witness :
    queryResources
        [⟨some "false",
          some [GoVal.map [("subscriptionId", GoVal.str "s"),
                           ("location", GoVal.str "l"),
                           ("id", GoVal.str "x")],
                GoVal.map [("subscriptionId", GoVal.str "s"),
                           ("location", GoVal.str "l"),
                           ("id", GoVal.str "y")]],
          some 2, none⟩]
      = .ok ⟨[("l", [("s", ["x", "y"])])], []⟩
    ∧ ((([⟨some "false",
          some [GoVal.map [("subscriptionId", GoVal.str "s"),
                           ("location", GoVal.str "l"),
                           ("id", GoVal.str "x")],
                GoVal.map [("subscriptionId", GoVal.str "s"),
                           ("location", GoVal.str "l"),
                           ("id", GoVal.str "y")]],
          some 2, none⟩] : List GraphResponse).flatMap
            fun resp => resp.Data.getD []).filterMap (rowID "l" "s")).Nodup
    ∧ (bucketGet (Resources.Resources ⟨[("l", [("s", ["x", "y"])])], []⟩)
        "l" "s").Nodup :=
  ⟨rfl, by decide,
    C8_bucket_nodup
      [⟨some "false",
        some [GoVal.map [("subscriptionId", GoVal.str "s"),
                         ("location", GoVal.str "l"),
                         ("id", GoVal.str "x")],
              GoVal.map [("subscriptionId", GoVal.str "s"),
                         ("location", GoVal.str "l"),
                         ("id", GoVal.str "y")]],
        some 2, none⟩]
      ⟨[("l", [("s", ["x", "y"])])], []⟩ "l" "s" rfl (by decide)⟩

/-- Claim C9 counterexample: a request whose `resourceType` appears exactly
once with a non-empty value is still rejected when `metricName` is absent —
acceptance does not follow from the `resourceType` condition alone. -/
theorem C9_counterexample :
    (Values.getAll [("resourceType", ["vm"])] "resourceType").length = 1
    ∧ Values.get [("resourceType", ["vm"])] "resourceType" = "vm"
    ∧ GetConfigFromRequest [("resourceType", ["vm"])]
      = .error "'metricName' parameter must be specified" :=
  ⟨rfl, rfl, rfl⟩

/-- Claim C9 (amended): the parser rejects with the `resourceType` validation
error whenever the parameter is missing or repeated and whenever its value is
empty (the check runs first), and accepts — with that value in the resulting
config — whenever `resourceType` appears exactly once with a non-empty value
*and the remaining parameters are themselves valid*: `metricName` is supplied
(in either its plain or array-suffix form), the at-most-once parameters are
not repeated, `top` parses as a 32-bit integer and `queryCacheExpiration`
parses as a duration when present. -/
theorem C9_resource_type_validation (query : Values) :
    ((query.getAll "resourceType").length ≠ 1 →
      GetConfigFromRequest query
        = .error "'resourceType' parameter must be specified once")
    ∧ (query.get "resourceType" = "" →
      GetConfigFromRequest query
        = .error "'resourceType' parameter must be specified once")
    ∧ ((query.getAll "resourceType").length = 1 →
       query.get "resourceType" ≠ "" →
       ¬ ((query.getAll "metricName").isEmpty
          ∧ (query.getAll "metricName[]").isEmpty) →
       (query.getAll "interval").length ≤ 1 →
       (query.getAll "filter").length ≤ 1 →
       (query.getAll "metricPrefix").length ≤ 1 →
       (query.getAll "metricNamespace").length ≤ 1 →
       (query.getAll "top").length ≤ 1 →
       ((query.getAll "top").length = 1 →
         (goParseInt32 (query.get "top")).2 = true) →
       (query.getAll "queryCacheExpiration").length ≤ 1 →
       ((query.getAll "queryCacheExpiration").length = 1 →
         (goParseDuration (query.get "queryCacheExpiration")).isSome) →
       ∃ cfg, GetConfigFromRequest query = .ok cfg
         ∧ cfg.ResourceType = query.get "resourceType") := by
  refine ⟨?_, ?_, ?_⟩
  · intro h
    rw [GetConfigFromRequest.eq_def, if_pos (Or.inl h)]
  · intro h
    rw [GetConfigFromRequest.eq_def, if_pos (Or.inr h)]
  · intro hrt1 hrt2 hmn hint hfil hmp hmns htop htop2 hqce hqce2
    rw [GetConfigFromRequest.eq_def,
      if_neg (fun hc => hc.elim (fun hh => hh hrt1) (fun hh => hrt2 hh)),
      if_neg hmn,
      if_neg (by omega : ¬ 1 < (query.getAll "interval").length),
      if_neg (by omega : ¬ 1 < (query.getAll "filter").length),
      if_neg (by omega : ¬ 1 < (query.getAll "metricPrefix").length),
      if_neg (by omega : ¬ 1 < (query.getAll "metricNamespace").length)]
    by_cases hl : (query.getAll "top").length = 1
    · rcases hgp : goParseInt32 (query.get "top") with ⟨v, ok⟩
      have hok : ok = true := by
        have := htop2 hl
        rw [hgp] at this
        exact this
      subst hok
      rw [if_pos hl]
      simp only [hgp]
      by_cases hql : (query.getAll "queryCacheExpiration").length = 1
      · rw [if_pos hql]
        rcases hgd : goParseDuration (query.get "queryCacheExpiration") with _ | d
        · exact absurd (hqce2 hql) (by rw [hgd]; simp)
        · simp only [hgd]
          exact ⟨_, rfl, rfl⟩
      · rw [if_neg hql, if_neg (by omega : ¬ 1 ≤ (query.getAll "queryCacheExpiration").length)]
        exact ⟨_, rfl, rfl⟩
    · rw [if_neg hl, if_neg (by omega : ¬ 1 ≤ (query.getAll "top").length)]
      simp only
      by_cases hql : (query.getAll "queryCacheExpiration").length = 1
      · rw [if_pos hql]
        rcases hgd : goParseDuration (query.get "queryCacheExpiration") with _ | d
        · exact absurd (hqce2 hql) (by rw [hgd]; simp)
        · simp only [hgd]
          exact ⟨_, rfl, rfl⟩
      · rw [if_neg hql, if_neg (by omega : ¬ 1 ≤ (query.getAll "queryCacheExpiration").length)]
        exact ⟨_, rfl, rfl⟩

/-- Witness for C9: the missing-parameter and the empty-value reject halves,
and the accept half on a minimal valid request carrying `top` and
`queryCacheExpiration`. -/
theorem C9_resource_type_validation_witness :
    ((Values.getAll [] "resourceType").length ≠ 1
      ∧ GetConfigFromRequest []
        = .error "'resourceType' parameter must be specified once")
    ∧ (Values.get [("resourceType", [""])] "resourceType" = ""
      ∧ GetConfigFromRequest [("resourceType", [""])]
        = .error "'resourceType' parameter must be specified once")
    ∧ ((Values.getAll [("resourceType", ["vm"]), ("metricName", ["m"]),
          ("top", ["5"]), ("queryCacheExpiration", ["60s"])] "resourceType").length = 1
      ∧ ∃ cfg, GetConfigFromRequest
          [("resourceType", ["vm"]), ("metricName", ["m"]),
           ("top", ["5"]), ("queryCacheExpiration", ["60s"])] = .ok cfg
        ∧ cfg.ResourceType = Values.get
            [("resourceType", ["vm"]), ("metricName", ["m"]),
             ("top", ["5"]), ("queryCacheExpiration", ["60s"])] "resourceType") :=
  ⟨⟨by decide, (C9_resource_type_validation []).1 (by decide)⟩,
   ⟨rfl, (C9_resource_type_validation [("resourceType", [""])]).2.1 rfl⟩,
   ⟨by decide,
    (C9_resource_type_validation
        [("resourceType", ["vm"]), ("metricName", ["m"]),
         ("top", ["5"]), ("queryCacheExpiration", ["60s"])]).2.2
      (by decide) (by decide) (by decide) (by decide) (by decide) (by decide)
      (by decide) (by decide) (by decide) (by decide) (by decide)⟩⟩

end AzureMonitorExporter
